import Mathlib

/-!
# Verification of the gospeak type translator (`golang-cz/go2webrpc`)

A shallow embedding of the repository's type translator: the recursive,
memoized walker that converts Go's `go/types` type graph into webrpc IR
`VarType` descriptors (`types.go`: `parseNamedType`, `parseStruct`,
`parseStructField`, `parseSlice`, `parseMap`, `parseAny`, `getJsonTag`,
`appendOrOverrideExistingField`, `goTypeName`, `goTypeImport`; and the
internal parser variant in `internal/parser/named.go` plus its struct
walker).

Modelling conventions:
* Go's `types.Type` objects are interned, reference-equal values; we model
  the type graph as a finite environment `Env` assigning a `TypeDesc` to
  each type identity (a `Nat` id).  The memo (`p.parsedTypes`) maps ids to
  heap addresses.
* `*schema.VarType` pointers are addresses (`Nat`) into an explicit heap
  inside the parser state `PState`; `*schema.Type` records live in a second
  heap.  Pointer writes (`*cacheDoNotReturn = *varType`) become `heapSet`.
* Go slices of fields carry values; the one place where Go slice aliasing
  is observable (`appendOrOverrideExistingField`'s delete-while-ranging
  loop) is modelled at the backing-array level (`goCopyShift`).
* The marshaler probes (`isTextMarshaler` / `isJsonMarshaller`) match
  method signature strings by regex over the host reflection API; we model
  their outcome as boolean capabilities carried by the named `TypeDesc`
  (the spec itself sanctions an explicit capability registry, section 9).
* Go errors are strings; `fmt.Errorf` wrapping is string concatenation.
* The walker recurses unboundedly in Go; the embedding adds a `fuel`
  argument, and the termination theorem shows a fuel of
  `env.decls.length + 1` never runs out (`PRes.timeout` unreachable).
-/

/-- webrpc core type kinds (`schema.T_*`) used by this repository, plus
`tUnknown` for the zero `schema.VarType` placeholder value. -/
inductive TK where
  | tUnknown
  | tBool
  | tByte
  | tUint8
  | tUint16
  | tUint32
  | tUint64
  | tInt8
  | tInt16
  | tInt32
  | tInt64
  | tInt
  | tUint
  | tFloat32
  | tFloat64
  | tString
  | tTimestamp
  | tList
  | tMap
  | tAny
  | tStruct
deriving DecidableEq, Repr, Inhabited

/-- One `schema.TypeFieldMeta` key/value pair (e.g. `go.field.name`). -/
structure TypeFieldMeta where
  key : String
  value : String
deriving DecidableEq, Repr, Inhabited

/-- `schema.TypeField`: a struct field or enum variant in the IR.
`typeRef` is the `*schema.VarType` heap address (none for enum values),
`value` is `TypeExtra.Value` (enum backing value). -/
structure TypeFieldObj where
  name : String := ""
  typeRef : Option Nat := none
  value : String := ""
  optional : Bool := false
  meta : List TypeFieldMeta := []
deriving DecidableEq, Repr, Inhabited

/-- `schema.Type`: a declared struct or enum record.  `elemType` is the
`Type.Type` VarType address (used by enums for the backing type). -/
structure TypeObj where
  kind : String := ""
  name : String := ""
  elemType : Option Nat := none
  fields : List TypeFieldObj := []
deriving DecidableEq, Repr, Inhabited

/-- `schema.VarType` as a heap object.  Payloads by kind: `listElem` for
List (`VarListType.Elem` address), `mapKey`/`mapValue` for Map
(`VarMapType.Key` is a bare kind, `Value` an address), `structName` and
`structTypeRef` for Struct (`VarStructType`). -/
structure VarTypeObj where
  expr : String := ""
  kind : TK := .tUnknown
  listElem : Option Nat := none
  mapKey : Option TK := none
  mapValue : Option Nat := none
  structName : String := ""
  structTypeRef : Option Nat := none
deriving DecidableEq, Repr, Inhabited

/-- The mutable parser state: the VarType heap, the Type-record heap, the
schema's ordered `Types` list (addresses into `typeHeap`), and the memo
`p.parsedTypes` from host type id to VarType address. -/
structure PState where
  heap : List VarTypeObj := []
  typeHeap : List TypeObj := []
  schemaTypes : List Nat := []
  parsedTypes : List (Nat × Nat) := []
deriving DecidableEq, Repr, Inhabited

/-- Allocate a fresh `*schema.VarType`; returns its address. -/
def PState.alloc (s : PState) (v : VarTypeObj) : Nat × PState :=
  (s.heap.length, { s with heap := s.heap ++ [v] })

/-- Dereference a `*schema.VarType` address. -/
def PState.heapGet (s : PState) (a : Nat) : VarTypeObj :=
  s.heap.getD a default

/-- Write through a `*schema.VarType` pointer (`*p = v`). -/
def PState.heapSet (s : PState) (a : Nat) (v : VarTypeObj) : PState :=
  { s with heap := s.heap.set a v }

/-- Allocate a fresh `*schema.Type` record; returns its address. -/
def PState.typeAlloc (s : PState) (t : TypeObj) : Nat × PState :=
  (s.typeHeap.length, { s with typeHeap := s.typeHeap ++ [t] })

/-- Dereference a `*schema.Type` address. -/
def PState.typeGet (s : PState) (t : Nat) : TypeObj :=
  s.typeHeap.getD t default

/-- `p.schema.Types = append(p.schema.Types, t)`. -/
def PState.schemaAppend (s : PState) (t : Nat) : PState :=
  { s with schemaTypes := s.schemaTypes ++ [t] }

/-- `p.parsedTypes[typ] = v` (only ever called on a cache miss). -/
def PState.memoInsert (s : PState) (t a : Nat) : PState :=
  { s with parsedTypes := (t, a) :: s.parsedTypes }

/-- Lookup in the memo map (Go map indexing `p.parsedTypes[typ]`). -/
def memoLookup : List (Nat × Nat) → Nat → Option Nat
  | [], _ => none
  | (k, v) :: rest, t => if k = t then some v else memoLookup rest t

/-- A struct field as seen through `go/types` (`structTyp.Field(i)` plus
`structTyp.Tag(i)`): name, exported-ness, embedded-ness, the field type's
id, and the raw struct tag. -/
structure FieldDecl where
  name : String := ""
  exported : Bool := true
  embedded : Bool := false
  typeId : Nat := 0
  tag : String := ""
deriving DecidableEq, Repr, Inhabited

/-- Model of a `go/types.Type` object, referenced by identity id.  For a
named type: the declaring package path (`none` models a nil package), the
object id `v.Obj().Id()`, the underlying type's id, and the outcomes of
the two marshaler probes (`isTextMarshaler` / `isJsonMarshaller`, see the
file comment).  `chanT` stands for any host kind the walker's switch does
not cover (channels, funcs, ...). -/
inductive TypeDesc where
  | named (pkgPath : Option String) (objId : String) (underlying : Nat)
      (textMarshaler jsonMarshaler : Bool)
  | basic (bname : String)
  | structT (fields : List FieldDecl)
  | sliceT (elem : Nat)
  | arrayT (elem : Nat)
  | mapT (key elem : Nat)
  | pointerT (elem : Nat)
  | interfaceT (methods : List String)
  | chanT
deriving DecidableEq, Repr, Inhabited

/-- The host type graph handed to the translator: `decls` indexed by type
id, `typeStrs` the `typ.String()` of each id, the schema package name used
by the canonicalizer, the enum doc comments the AST scan collects
(`comment.Text` values, flattened), and the internal parser's
pre-registered enums (`p.ParsedEnumTypes`, keyed by `typ.String()`). -/
structure Env where
  decls : List TypeDesc := []
  typeStrs : List String := []
  schemaPkgName : String := ""
  enumDocComments : List String := []
  parsedEnumTypes : List (String × String) := []
deriving DecidableEq, Repr, Inhabited

/-- `typ.String()` for a type id. -/
def typeStrOf (env : Env) (tid : Nat) : String :=
  env.typeStrs.getD tid ""

/-- `typ.Underlying()`: identity on non-named types, one step through a
named type (go/types guarantees the underlying of a named type is never
itself named). -/
def underlyingIdOf (env : Env) (tid : Nat) : Nat :=
  match env.decls.get? tid with
  | some (.named _ _ u _ _) => u
  | _ => tid

/-- Is `typ.Underlying()` a `*types.Pointer`? -/
def isUnderlyingPointer (env : Env) (tid : Nat) : Bool :=
  match env.decls.get? (underlyingIdOf env tid) with
  | some (.pointerT _) => true
  | _ => false

/-- Is `typ.Underlying()` a `*types.Struct`? -/
def isUnderlyingStruct (env : Env) (tid : Nat) : Bool :=
  match env.decls.get? (underlyingIdOf env tid) with
  | some (.structT _) => true
  | _ => false

/-! ## Name canonicalizer (`findFirstLetter`, `goTypeName`, `goTypeImport`)

Character-level port of the string munging in `types.go`.  ASCII is
assumed (Go indexes bytes, `unicode.IsLetter`; type names are ASCII). -/

/-- `findFirstLetter`: index of the first letter, 0 when there is none. -/
def findFirstLetter (s : String) : Nat :=
  match s.data.findIdx? (fun c => c.isAlpha) with
  | some i => i
  | none => 0

/-- `strings.TrimPrefix` (char-level: the core `String` byte API is not
kernel-reducible, so all string munging here works on `.data`). -/
def trimPfx (s pre : String) : String :=
  if pre.data.isPrefixOf s.data then String.mk (s.data.drop pre.data.length) else s

/-- The chars after the last `'/'` (the whole list when there is none). -/
def afterLastSlash (cs : List Char) : List Char :=
  ((cs.reverse.takeWhile (fun c => !(c = '/'))).reverse)

/-- `filepath.Base`, restricted to the inputs that occur here (Go type
strings: no trailing slash; the empty string gives `"."`). -/
def filepathBase (s : String) : String :=
  if s = "" then "." else String.mk (afterLastSlash s.data)

/-- `strings.HasPrefix`. -/
def strStartsWith (s pre : String) : Bool :=
  pre.data.isPrefixOf s.data

/-- `strings.HasSuffix`. -/
def strEndsWith (s suf : String) : Bool :=
  suf.data.reverse.isPrefixOf s.data.reverse

/-- `p.goTypeName`: keep the non-letter shape tokens (`[]*`), strip the
schema's own package and the command-line placeholder package, reduce to
the last path segment. -/
def goTypeName (env : Env) (tid : Nat) : String :=
  let name0 := typeStrOf env tid
  let fl := findFirstLetter name0
  let pfx := String.mk (name0.data.take fl)
  let name1 := String.mk (name0.data.drop fl)
  let name2 := trimPfx name1 (env.schemaPkgName ++ ".")
  let name3 := trimPfx name2 "command-line-arguments."
  let name4 := filepathBase name3
  let name5 := if name4 = "invalid type" then "invalidType" else name4
  pfx ++ name5

/-- Index of the last `'.'` (`strings.LastIndex(name, ".")`). -/
def lastDotIdx : List Char → Option Nat
  | [] => none
  | c :: rest =>
    match lastDotIdx rest with
    | some i => some (i + 1)
    | none => if c = '.' then some 0 else none

/-- `p.goTypeImport`: the defining package path, empty for the schema's
own package, the command-line placeholder and `time`. -/
def goTypeImport (env : Env) (tid : Nat) : String :=
  let name0 := typeStrOf env tid
  let name1 := String.mk (name0.data.drop (findFirstLetter name0))
  match lastDotIdx name1.data with
  | none => ""
  | some i =>
    if i = 0 then ""
    else
      let name2 := String.mk (name1.data.take i)
      if name2 = env.schemaPkgName ∨ name2 = "command-line-arguments" ∨ name2 = "time" then ""
      else name2

/-! ## Tag parser (`getJsonTag` and the `jsonTagRegex`) -/

/-- `strings.Contains` on character lists (empty pattern always holds). -/
def listContainsSub (pat : List Char) : List Char → Bool
  | [] => pat.isEmpty
  | c :: cs => pat.isPrefixOf (c :: cs) || listContainsSub pat cs

/-- `strings.Contains` on strings. -/
def strContainsSub (s pat : String) : Bool :=
  listContainsSub pat.data s.data

/-- The parsed `json:"..."` struct tag (`jsonTag` in `types.go`). -/
structure JsonTag where
  name : String := ""
  value : String := ""
  isString : Bool := false
  omitempty : Bool := false
deriving DecidableEq, Repr, Inhabited

/-- A character allowed in the regex's name group `[^,\"]*`. -/
def tagNameChar (c : Char) : Bool :=
  !(c = ',') && !(c = '"')

/-- Match the regex tail `([^,\"]*)(,[^\"]*)?\"` right after a `json:"`
occurrence, returning the two submatch groups (name, options). -/
def matchJsonValue (cs : List Char) : Option (List Char × List Char) :=
  let nm := cs.takeWhile tagNameChar
  let rest := cs.dropWhile tagNameChar
  match rest with
  | '"' :: _ => some (nm, [])
  | ',' :: _ =>
    let opts := rest.takeWhile (fun c => !(c = '"'))
    let rest2 := rest.dropWhile (fun c => !(c = '"'))
    match rest2 with
    | '"' :: _ => some (nm, opts)
    | _ => none
  | _ => none

/-- The literal `json:"`. -/
def jsonTagKey : List Char := ['j', 's', 'o', 'n', ':', '"']

/-- Leftmost match of `jsonTagRegex` over the raw tag: try each
occurrence of `json:"` left to right until the tail completes a match
(Go's RE2 leftmost semantics; the optional leading `\s?` does not affect
the submatches). -/
def jsonTagFindAux : List Char → Option (List Char × List Char)
  | [] => none
  | c :: cs =>
    match (if jsonTagKey.isPrefixOf (c :: cs) then matchJsonValue ((c :: cs).drop 6) else none) with
    | some r => some r
    | none => jsonTagFindAux cs

/-- `getJsonTag`: the `strings.Contains` guard plus the regex submatch
extraction both collapse into the option; the flags are substring tests
on the options group, exactly as in the source. -/
def getJsonTag (structTags : String) : Option JsonTag :=
  match jsonTagFindAux structTags.data with
  | none => none
  | some (nm, opts) =>
    some { name := String.mk nm
           value := String.mk (nm ++ opts)
           isString := listContainsSub (",string").data opts
           omitempty := listContainsSub (",omitempty").data opts }

/-- The tag actually consulted by `parseStructField` after the
`jsonTag, ok := getJsonTag(...)` idiom: the zero value when absent
(line 428 of `types.go` reads `jsonTag.Value` even when `!ok`). -/
def effectiveJsonTag (tag : String) : JsonTag :=
  (getJsonTag tag).getD {}

/-! ## `appendOrOverrideExistingField`

The Go loop ranges over the original slice header while deleting in
place (`copy` + reslice), so later iterations read the shifted backing
array.  We model the backing array explicitly: `goCopyShift` is
`copy(slice[i:], slice[i+1:])` for a slice of logical length `len`
(entries at `len-1` and beyond keep their old values). -/

/-- `copy(slice[i:], slice[i+1:])` on the backing array, logical length
`len`. -/
def goCopyShift (arr : List TypeFieldObj) (i len : Nat) : List TypeFieldObj :=
  arr.take i ++ (arr.drop (i + 1)).take (len - i - 1) ++ arr.drop (len - 1)

/-- The delete loop of `appendOrOverrideExistingField`: `k` counts the
remaining iterations of the (snapshotted) range, `i` the current index,
`len` the current logical slice length. -/
def appendLoopGo (nm : String) : Nat → Nat → List TypeFieldObj → Nat → List TypeFieldObj × Nat
  | 0, _, arr, len => (arr, len)
  | k + 1, i, arr, len =>
    if (arr.getD i default).name = nm then
      appendLoopGo nm k (i + 1) (goCopyShift arr i len) (len - 1)
    else
      appendLoopGo nm k (i + 1) arr len

/-- `appendOrOverrideExistingField`: delete any previously defined field
of the same name, then append the new item at the tail. -/
def appendOrOverrideExistingField (slice : List TypeFieldObj) (newItem : TypeFieldObj) :
    List TypeFieldObj :=
  let r := appendLoopGo newItem.name slice.length 0 slice slice.length
  r.1.take r.2 ++ [newItem]

/-! ## Basic type mapper -/

/-- Modelled from the spec: section 4.7 Basic Type Mapper.  The function
called here (`schema.ParseVarTypeExpr` of the external webrpc library) is
not part of this repository; per the spec it maps each primitive host
type to a canonical IR kind and fails on unknown primitives. -/
def basicTypeKind : String → Option TK
  | "bool" => some .tBool
  | "byte" => some .tByte
  | "uint8" => some .tUint8
  | "uint16" => some .tUint16
  | "uint32" => some .tUint32
  | "uint64" => some .tUint64
  | "int8" => some .tInt8
  | "int16" => some .tInt16
  | "int32" => some .tInt32
  | "int64" => some .tInt64
  | "int" => some .tInt
  | "uint" => some .tUint
  | "float32" => some .tFloat32
  | "float64" => some .tFloat64
  | "string" => some .tString
  | _ => none

/-! ## Enum value extraction (the AST scan in the gospeak.Enum branch) -/

/-- `strings.CutPrefix`. -/
def cutPfx (s pre : String) : String :=
  if pre.data.isPrefixOf s.data then String.mk (s.data.drop pre.data.length) else s

/-- `strings.TrimSpace` (char-level; ASCII whitespace). -/
def strTrim (s : String) : String :=
  String.mk (((s.data.dropWhile Char.isWhitespace).reverse.dropWhile Char.isWhitespace).reverse)

/-- `strings.Cut(s, "=")`: split at the first `'='`, reporting whether it
was found. -/
def cutAtEq : List Char → Option (List Char × List Char)
  | [] => none
  | c :: rest =>
    if c = '=' then some ([], rest)
    else
      match cutAtEq rest with
      | some (a, b) => some (c :: a, b)
      | none => none

/-- One doc-comment line turned into an enum variant (`name = value`, or
a bare name with the comment-line index as implicit value). -/
def enumValueOfComment (i : Nat) (txt : String) : TypeFieldObj :=
  let cv := cutPfx txt "//"
  match cutAtEq cv.data with
  | some (a, b) => { name := strTrim (String.mk a), value := strTrim (String.mk b) }
  | none => { name := strTrim cv, value := strTrim (toString i) }

/-- The enum variants collected by the package-wide AST scan (`types.go`
lines 73-107).  The scan walks every `type ... Enum` declaration's doc
comments in the package syntax; the environment carries those comment
lines pre-collected, in order. -/
def extractEnumValues (env : Env) : List TypeFieldObj :=
  (List.range env.enumDocComments.length).map
    (fun i => enumValueOfComment i (env.enumDocComments.getD i ""))

/-! ## The walker's result type -/

/-- Outcome of a translator call: `(value, error)` in Go, plus the
fuel-exhaustion marker `timeout` that exists only in the embedding (the
termination theorem shows it unreachable for sufficient fuel). -/
inductive PRes (α : Type) where
  | ok (val : α) (s : PState)
  | err (msg : String) (s : PState)
  | timeout
deriving DecidableEq, Repr

/-- The state carried by a non-timeout result. -/
def PRes.stateOpt {α : Type} : PRes α → Option PState
  | .ok _ s => some s
  | .err _ s => some s
  | .timeout => none

/-- Allocate a literal `&schema.VarType{...}` and return it. -/
def mkOkVar (s : PState) (v : VarTypeObj) : PRes Nat :=
  .ok (s.alloc v).1 (s.alloc v).2

/-- `p.parseBasic`: delegate to the basic type mapper, wrap failures. -/
def parseBasic (bname : String) (s : PState) : PRes Nat :=
  match basicTypeKind bname with
  | none => .err ("failed to parse basic type: " ++ bname) s
  | some k => mkOkVar s { expr := bname, kind := k }

/-- `p.parseAny`: every interface becomes `any`; the method set is
ignored entirely and the call cannot fail. -/
def parseAny (typeName : String) (methods : List String) (s : PState) : PRes Nat :=
  mkOkVar s { expr := "any", kind := .tAny }

/-- The memo claim on a cache miss: allocate the `cacheDoNotReturn`
placeholder `&schema.VarType{Expr: typeName}` and store it under the host
type id before any recursive work. -/
def claimState (s : PState) (typeName : String) (tid : Nat) : PState :=
  ((s.alloc { expr := typeName }).2).memoInsert tid s.heap.length

/-! ## The root walker (`types.go`)

Mutual translation of `parseNamedType` and its helpers.  The body of the
big `switch` lives in `parseNamedTypeDispatch`; the part of the
`*types.Named` case after the package-scoped checks lives in
`parseNamedRest`, and the named-slice/array handling in
`namedSliceArray` (pure refactoring of one Go function body into
lexically smaller Lean definitions; control flow is unchanged). -/

mutual

/-- `p.parseNamedType(typeName, typ)`: memo lookup, memo claim, dispatch,
and the deferred backfill `*cacheDoNotReturn = *varType`. -/
def parseNamedType : Nat → Env → String → Nat → PState → PRes Nat
  | 0, _, _, _, _ => .timeout
  | fuel + 1, env, typeName, tid, s =>
    match memoLookup s.parsedTypes tid with
    | some a => .ok a s
    | none =>
      let cAddr := s.heap.length
      let s1 := claimState s typeName tid
      match parseNamedTypeDispatch fuel env typeName tid s1 with
      | .ok a s2 => .ok cAddr (s2.heapSet cAddr (s2.heapGet a))
      | .err e s2 => .err e s2
      | .timeout => .timeout
  termination_by fuel _ _ _ _ => (fuel, 0, 0)

/-- The `switch v := typ.(type)` of `parseNamedType`. -/
def parseNamedTypeDispatch : Nat → Env → String → Nat → PState → PRes Nat
  | fuel, env, typeName, tid, s =>
    match env.decls.get? tid with
    | none => .err "unsupported argument type" s
    | some (.named pkgPath objId underlyingId textM jsonM) =>
      let tn := goTypeName env tid
      match pkgPath with
      | some pp =>
        if pp = "time" ∧ tn = "Time" then
          mkOkVar s { expr := "timestamp", kind := .tTimestamp }
        else if pp = "github.com/golang-cz/gospeak" ∧ strStartsWith tn "Enum[" ∧ strEndsWith tn "]" then
          match parseNamedType fuel env (goTypeName env underlyingId) underlyingId s with
          | .err e s2 => .err ("parsing gospeak.Enum underlying type: " ++ e) s2
          | .timeout => .timeout
          | .ok elemAddr s2 =>
            let tA := s2.typeAlloc
              { kind := "enum", name := objId, elemType := some elemAddr
                fields := extractEnumValues env }
            let s3 := (tA.2).schemaAppend tA.1
            mkOkVar s3
              { expr := objId, kind := .tStruct, structName := objId
                structTypeRef := some tA.1 }
        else
          parseNamedRest fuel env tn underlyingId textM jsonM s
      | none => parseNamedRest fuel env tn underlyingId textM jsonM s
    | some (.basic bname) => parseBasic bname s
    | some (.structT flds) => parseStruct fuel env typeName flds s
    | some (.sliceT elemId) => parseSlice fuel env typeName elemId s
    | some (.interfaceT ms) => parseAny typeName ms s
    | some (.mapT keyId valId) => parseMap fuel env typeName keyId valId s
    | some (.pointerT elemId) =>
      if typeName = "" then parseNamedType fuel env (goTypeName env tid) elemId s
      else parseNamedType fuel env typeName elemId s
    | some (.arrayT _) => .err "unsupported argument type" s
    | some .chanT => .err "unsupported argument type" s
  termination_by fuel _ _ _ _ => (fuel, 6, 0)

/-- The `*types.Named` case after the package checks: text-marshaler
probe, then the switch on the underlying type (named pointer, named
slice/array, default). -/
def parseNamedRest : Nat → Env → String → Nat → Bool → Bool → PState → PRes Nat
  | fuel, env, tn, underlyingId, textM, jsonM, s =>
    if textM then mkOkVar s { expr := "string", kind := .tString }
    else
      match env.decls.get? underlyingId with
      | some (.pointerT _) =>
        parseNamedType fuel env (goTypeName env underlyingId) underlyingId s
      | some (.sliceT elemId) => namedSliceArray fuel env underlyingId elemId jsonM s
      | some (.arrayT elemId) => namedSliceArray fuel env underlyingId elemId jsonM s
      | _ =>
        if jsonM then mkOkVar s { expr := "any", kind := .tAny }
        else parseNamedType fuel env tn underlyingId s
  termination_by fuel _ _ _ _ _ _ => (fuel, 5, 0)

/-- Named slice/array handling: json.Marshaler types become `[]any`,
basic element types short-circuit to a `List(basic)`, anything else
recurses on the underlying slice/array with its own canonical name. -/
def namedSliceArray : Nat → Env → Nat → Nat → Bool → PState → PRes Nat
  | fuel, env, underlyingId, elemId, jsonM, s =>
    if jsonM then
      let eA := s.alloc { expr := "any", kind := .tAny }
      mkOkVar eA.2 { expr := "[]any", kind := .tList, listElem := some eA.1 }
    else
      match env.decls.get? (underlyingIdOf env elemId) with
      | some (.basic bname) =>
        match parseBasic bname s with
        | .err e s2 => .err ("failed to parse []namedBasicType: " ++ e) s2
        | .timeout => .timeout
        | .ok bAddr s2 =>
          mkOkVar s2
            { expr := "[]" ++ (s2.heapGet bAddr).expr, kind := .tList
              listElem := some bAddr }
      | _ => parseNamedType fuel env (goTypeName env underlyingId) underlyingId s
  termination_by fuel _ _ _ _ _ => (fuel, 1, 0)

/-- `p.parseStruct`: iterate the fields, register the struct `Type`
record, return the StructRef VarType. -/
def parseStruct : Nat → Env → String → List FieldDecl → PState → PRes Nat
  | fuel, env, typeName, flds, s =>
    match parseStructFields fuel env typeName flds 0 [] s with
    | .err e s2 => .err e s2
    | .timeout => .timeout
    | .ok fieldList s2 =>
      let tA := s2.typeAlloc { kind := "struct", name := typeName, fields := fieldList }
      let s3 := (tA.2).schemaAppend tA.1
      mkOkVar s3
        { expr := typeName, kind := .tStruct, structName := typeName
          structTypeRef := some tA.1 }
  termination_by fuel _ _ _ _ => (fuel, 4, 0)

/-- The field loop of `parseStruct`: skip unexported fields, splice
embedded/inline struct fields through `appendOrOverrideExistingField`,
otherwise parse the field; `i` is the declaration index used in error
wrapping. -/
def parseStructFields : Nat → Env → String → List FieldDecl → Nat → List TypeFieldObj → PState →
    PRes (List TypeFieldObj)
  | _, _, _, [], _, acc, s => .ok acc s
  | fuel, env, typeName, f :: rest, i, acc, s =>
    if !f.exported then parseStructFields fuel env typeName rest (i + 1) acc s
    else if f.embedded || strContainsSub f.tag "json:\",inline\"" then
      match parseNamedType fuel env "" f.typeId s with
      | .err e s2 => .err ("parsing var " ++ f.name ++ ": " ++ e) s2
      | .timeout => .timeout
      | .ok a s2 =>
        let vt := s2.heapGet a
        let acc2 :=
          if vt.kind = .tStruct then
            (match vt.structTypeRef with
             | some t => (s2.typeGet t).fields
             | none => []).foldl (fun ac ef => appendOrOverrideExistingField ac ef) acc
          else acc
        parseStructFields fuel env typeName rest (i + 1) acc2 s2
    else
      match parseStructField fuel env typeName f s with
      | .err e s2 => .err ("parsing struct field " ++ toString i ++ ": " ++ e) s2
      | .timeout => .timeout
      | .ok none s2 => parseStructFields fuel env typeName rest (i + 1) acc s2
      | .ok (some fld) s2 =>
        parseStructFields fuel env typeName rest (i + 1)
          (appendOrOverrideExistingField acc fld) s2
  termination_by fuel _ _ flds _ _ _ => (fuel, 3, flds.length)

/-- `p.parseStructField`: tag handling (ignore, rename, optionality,
`,string` coercion with its early return), then the rest of the field
translation. -/
def parseStructField : Nat → Env → String → FieldDecl → PState → PRes (Option TypeFieldObj)
  | fuel, env, structTypeName, f, s =>
    let goFieldType := goTypeName env f.typeId
    let goFieldImport := goTypeImport env f.typeId
    match getJsonTag f.tag with
    | some jtag =>
      if jtag.name = "-" then .ok none s
      else
        let jsonFieldName := if jtag.name ≠ "" then jtag.name else f.name
        if jtag.isString then
          let vA := s.alloc { expr := "string", kind := .tString }
          .ok (some
            { name := jsonFieldName, typeRef := some vA.1, optional := jtag.omitempty
              meta := [⟨"go.field.name", f.name⟩, ⟨"go.field.type", goFieldType⟩]
                ++ (if goFieldImport ≠ "" then [⟨"go.type.import", goFieldImport⟩] else [])
                ++ [⟨"go.tag.json", jtag.value⟩] }) vA.2
        else
          parseStructFieldRest fuel env structTypeName f jsonFieldName jtag.omitempty jtag.value s
    | none => parseStructFieldRest fuel env structTypeName f f.name false "" s
  termination_by fuel _ _ _ _ => (fuel, 2, 0)

/-- `p.parseStructField` after the tag block: pointer-underlying
optionality, anonymous-struct naming, the recursive type translation and
the Meta list assembly. -/
def parseStructFieldRest : Nat → Env → String → FieldDecl → String → Bool → String → PState →
    PRes (Option TypeFieldObj)
  | fuel, env, structTypeName, f, jsonFieldName, optional0, jsonTagValue, s =>
    let goFieldType := goTypeName env f.typeId
    let goFieldImport := goTypeImport env f.typeId
    let optional1 := if isUnderlyingPointer env f.typeId then true else optional0
    let stn :=
      if isUnderlyingStruct env f.typeId then structTypeName ++ "Anonymous" ++ f.name
      else structTypeName
    match parseNamedType fuel env stn f.typeId s with
    | .err e s2 => .err ("failed to parse var " ++ f.name ++ ": " ++ e) s2
    | .timeout => .timeout
    | .ok a s2 =>
      .ok (some
        { name := jsonFieldName, typeRef := some a, optional := optional1
          meta := [⟨"go.field.name", f.name⟩, ⟨"go.field.type", goFieldType⟩]
            ++ (if goFieldImport ≠ "" then [⟨"go.type.import", goFieldImport⟩] else [])
            ++ (if jsonTagValue ≠ "" then [⟨"go.tag.json", jsonTagValue⟩] else []) }) s2
  termination_by fuel _ _ _ _ _ _ _ => (fuel, 1, 0)

/-- `p.parseSlice`: translate the element (with the same parent name),
emit the List VarType. -/
def parseSlice : Nat → Env → String → Nat → PState → PRes Nat
  | fuel, env, typeName, elemId, s =>
    match parseNamedType fuel env typeName elemId s with
    | .err e s2 => .err ("failed to parse slice type: " ++ e) s2
    | .timeout => .timeout
    | .ok a s2 =>
      mkOkVar s2 { expr := "[]" ++ (s2.heapGet a).expr, kind := .tList, listElem := some a }
  termination_by fuel _ _ _ _ => (fuel, 1, 0)

/-- `p.parseMap`: translate key then value (same parent name), emit the
Map VarType whose `Key` is the key's parsed kind — whatever it is — and
whose `Value` is the value descriptor. -/
def parseMap : Nat → Env → String → Nat → Nat → PState → PRes Nat
  | fuel, env, typeName, keyId, valId, s =>
    match parseNamedType fuel env typeName keyId s with
    | .err e s2 => .err ("failed to parse map key type: " ++ e) s2
    | .timeout => .timeout
    | .ok ka s2 =>
      match parseNamedType fuel env typeName valId s2 with
      | .err e s3 => .err ("failed to parse map value type: " ++ e) s3
      | .timeout => .timeout
      | .ok va s3 =>
        mkOkVar s3
          { expr := "map<" ++ (s3.heapGet ka).expr ++ "," ++ (s3.heapGet va).expr ++ ">"
            kind := .tMap, mapKey := some (s3.heapGet ka).kind, mapValue := some va }
  termination_by fuel _ _ _ _ _ => (fuel, 1, 0)

end

/-- `p.parseType`: the public entry point. -/
def parseType (fuel : Nat) (env : Env) (tid : Nat) (s : PState) : PRes Nat :=
  parseNamedType fuel env "" tid s

/-! ## The internal parser walker (`internal/parser/named.go` and the
struct walker source file)

The repository holds a second, near-duplicate walker (spec section 9
notes this).  `ParseNamedType` and the struct walker (`ParseStruct`,
`parseStructField`, its own `appendOrOverrideExistingField`) are in the
sources; `GetJsonTag`, `GoTypeNameToWebrpc`, `ParseBasic`, `ParseSlice`,
`ParseMap`, `ParseAny` and `GoTypeName` are referenced but their files
are not part of the source tree, so they are modelled from the spec
where noted.  The struct walker calls `ParseNamedType` with a string
parent (`named.go`'s signature takes a named-type handle; the snapshot
is mid-refactor), so the parent is carried as the name string whose
canonicalization seeds the placeholder expression. -/

namespace Internal

/-- Split a character list on commas (`strings.Split(s, ",")`). -/
def splitOnComma : List Char → List (List Char)
  | [] => [[]]
  | c :: rest =>
    if c = ',' then [] :: splitOnComma rest
    else
      match splitOnComma rest with
      | [] => [[c]]
      | g :: gs => (c :: g) :: gs

/-- Modelled from the spec: section 4.6 Tag Parser (the internal parser's
`GetJsonTag` source file is missing from the tree).  The serialization
key's value is a name followed by comma-separated options; recognized
options are `omitempty`, `string` and `inline`; unknown options are
ignored; the literal original value is kept for Meta. -/
structure JsonTag where
  name : String := ""
  value : String := ""
  isString : Bool := false
  omitempty : Bool := false
  inlineOpt : Bool := false
deriving DecidableEq, Repr, Inhabited

/-- Modelled from the spec: section 4.6 (see `Internal.JsonTag`). -/
def GetJsonTag (structTags : String) : Option JsonTag :=
  match jsonTagFindAux structTags.data with
  | none => none
  | some (nm, opts) =>
    let optList := (splitOnComma opts).map String.mk
    some { name := String.mk nm
           value := String.mk (nm ++ opts)
           isString := optList.contains "string"
           omitempty := optList.contains "omitempty"
           inlineOpt := optList.contains "inline" }

/-- Modelled from the spec: section 4.5 (the internal parser's
`GoTypeNameToWebrpc` is not in the tree); on the already-canonical names
produced by `goTypeName` it is the identity. -/
def GoTypeNameToWebrpc (s : String) : String := s

mutual

/-- `p.ParseNamedType(parent, typ)` of `named.go`: same memo
claim/backfill protocol as the root walker; the placeholder expression
is the canonicalized parent name. -/
def ParseNamedType : Nat → Env → String → Nat → PState → PRes Nat
  | 0, _, _, _, _ => .timeout
  | fuel + 1, env, parentName, tid, s =>
    match memoLookup s.parsedTypes tid with
    | some a => .ok a s
    | none =>
      let cAddr := s.heap.length
      let s1 := claimState s parentName tid
      match ParseNamedTypeDispatch fuel env parentName tid s1 with
      | .ok a s2 => .ok cAddr (s2.heapSet cAddr (s2.heapGet a))
      | .err e s2 => .err e s2
      | .timeout => .timeout
  termination_by fuel _ _ _ _ => (fuel, 0, 0)

/-- The `switch v := typ.(type)` of `named.go`'s `ParseNamedType`:
`time.Time`, the pre-registered enum lookup (`p.ParsedEnumTypes`), the
text-marshaler probe, then the underlying switch. -/
def ParseNamedTypeDispatch : Nat → Env → String → Nat → PState → PRes Nat
  | fuel, env, parentName, tid, s =>
    match env.decls.get? tid with
    | none => .err "unsupported argument type" s
    | some (.named pkgPath _ underlyingId textM jsonM) =>
      let gtn := goTypeName env tid
      if pkgPath.isSome ∧ gtn = "time.Time" then
        mkOkVar s { expr := "timestamp", kind := .tTimestamp }
      else
        match (env.parsedEnumTypes.filter (fun p => p.1 = typeStrOf env tid)).head? with
        | some enumEntry => mkOkVar s { expr := enumEntry.2, kind := .tString }
        | none =>
          if textM then mkOkVar s { expr := "string", kind := .tString }
          else
            match env.decls.get? underlyingId with
            | some (.pointerT _) =>
              ParseNamedType fuel env (goTypeName env tid) underlyingId s
            | some (.sliceT elemId) => NamedSliceArray fuel env tid underlyingId elemId jsonM s
            | some (.arrayT elemId) => NamedSliceArray fuel env tid underlyingId elemId jsonM s
            | _ =>
              if jsonM then mkOkVar s { expr := "any", kind := .tAny }
              else ParseNamedType fuel env (goTypeName env tid) underlyingId s
    | some (.basic bname) => parseBasic bname s
    | some (.structT flds) => ParseStruct fuel env parentName flds s
    | some (.sliceT elemId) => ParseSlice fuel env parentName elemId s
    | some (.interfaceT ms) => parseAny parentName ms s
    | some (.mapT keyId valId) => ParseMap fuel env parentName keyId valId s
    | some (.pointerT elemId) => ParseNamedType fuel env parentName elemId s
    | some (.arrayT _) => .err "unsupported argument type" s
    | some .chanT => .err "unsupported argument type" s
  termination_by fuel _ _ _ _ => (fuel, 6, 0)

/-- Named slice/array handling of `named.go` (identical logic to the
root walker's, with the named type itself as recursion parent). -/
def NamedSliceArray : Nat → Env → Nat → Nat → Nat → Bool → PState → PRes Nat
  | fuel, env, tid, underlyingId, elemId, jsonM, s =>
    if jsonM then
      let eA := s.alloc { expr := "any", kind := .tAny }
      mkOkVar eA.2 { expr := "[]any", kind := .tList, listElem := some eA.1 }
    else
      match env.decls.get? (underlyingIdOf env elemId) with
      | some (.basic bname) =>
        match parseBasic bname s with
        | .err e s2 => .err ("failed to parse []namedBasicType: " ++ e) s2
        | .timeout => .timeout
        | .ok bAddr s2 =>
          mkOkVar s2
            { expr := "[]" ++ (s2.heapGet bAddr).expr, kind := .tList
              listElem := some bAddr }
      | _ => ParseNamedType fuel env (goTypeName env tid) underlyingId s
  termination_by fuel _ _ _ _ _ _ => (fuel, 1, 0)

/-- `p.ParseStruct` of the internal struct walker: fields ignored by
`json:"-"` are dropped at this level, promotion also triggers on the
parsed tag's inline option, and the struct's IR name goes through
`GoTypeNameToWebrpc`. -/
def ParseStruct : Nat → Env → String → List FieldDecl → PState → PRes Nat
  | fuel, env, goTypeNameArg, flds, s =>
    let webrpcTypeName := GoTypeNameToWebrpc goTypeNameArg
    match ParseStructFields fuel env goTypeNameArg flds 0 [] s with
    | .err e s2 => .err e s2
    | .timeout => .timeout
    | .ok fieldList s2 =>
      let tA := s2.typeAlloc { kind := "struct", name := webrpcTypeName, fields := fieldList }
      let s3 := (tA.2).schemaAppend tA.1
      mkOkVar s3
        { expr := webrpcTypeName, kind := .tStruct, structName := webrpcTypeName
          structTypeRef := some tA.1 }
  termination_by fuel _ _ _ _ => (fuel, 4, 0)

/-- The field loop of the internal `ParseStruct`. -/
def ParseStructFields : Nat → Env → String → List FieldDecl → Nat → List TypeFieldObj → PState →
    PRes (List TypeFieldObj)
  | _, _, _, [], _, acc, s => .ok acc s
  | fuel, env, goTypeNameArg, f :: rest, i, acc, s =>
    if !f.exported then ParseStructFields fuel env goTypeNameArg rest (i + 1) acc s
    else
      let jtag := (GetJsonTag f.tag).getD {}
      if jtag.name = "-" then ParseStructFields fuel env goTypeNameArg rest (i + 1) acc s
      else if f.embedded || jtag.inlineOpt then
        match ParseNamedType fuel env "" f.typeId s with
        | .err e s2 => .err ("parsing var " ++ f.name ++ ": " ++ e) s2
        | .timeout => .timeout
        | .ok a s2 =>
          let vt := s2.heapGet a
          let acc2 :=
            if vt.kind = .tStruct then
              (match vt.structTypeRef with
               | some t => (s2.typeGet t).fields
               | none => []).foldl (fun ac ef => appendOrOverrideExistingField ac ef) acc
            else acc
          ParseStructFields fuel env goTypeNameArg rest (i + 1) acc2 s2
      else
        match parseStructField fuel env (goTypeNameArg ++ "Field") f jtag s with
        | .err e s2 => .err ("parsing struct field " ++ toString i ++ ": " ++ e) s2
        | .timeout => .timeout
        | .ok none s2 => ParseStructFields fuel env goTypeNameArg rest (i + 1) acc s2
        | .ok (some fld) s2 =>
          ParseStructFields fuel env goTypeNameArg rest (i + 1)
            (appendOrOverrideExistingField acc fld) s2
  termination_by fuel _ _ flds _ _ _ => (fuel, 3, flds.length)

/-- The internal `parseStructField` (takes the parsed tag): omitempty
marks the field optional AND prefixes the recorded host type with `*`;
the same prefixing happens for pointer-underlying fields; the `,string`
coercion early-returns; the recursion parent is the (possibly prefixed)
host type name — the anonymous-struct name `stn` is computed but dead,
mirroring the source, which reassigns `structTypeName` and then passes
`goFieldType` to `ParseNamedType`.  (The source's type-alias panics are
outside this model: `TypeDesc` has no alias notion.) -/
def parseStructField : Nat → Env → String → FieldDecl → JsonTag → PState →
    PRes (Option TypeFieldObj)
  | fuel, env, structTypeName, f, jtag, s =>
    let goFieldImport := goTypeImport env f.typeId
    if jtag.name = "-" then .ok none s
    else
      let jsonFieldName := if jtag.name ≠ "" then jtag.name else f.name
      let goFieldType0 := goTypeName env f.typeId
      let goFieldType1 := if jtag.omitempty then "*" ++ goFieldType0 else goFieldType0
      let optional0 := jtag.omitempty
      if jtag.isString then
        let vA := s.alloc { expr := "string", kind := .tString }
        .ok (some
          { name := jsonFieldName, typeRef := some vA.1, optional := optional0
            meta := [⟨"go.field.name", f.name⟩, ⟨"go.field.type", goFieldType1⟩]
              ++ (if goFieldImport ≠ "" then [⟨"go.type.import", goFieldImport⟩] else [])
              ++ [⟨"go.tag.json", jtag.value⟩] }) vA.2
      else
        let isPtr := isUnderlyingPointer env f.typeId
        let optional1 := if isPtr then true else optional0
        let goFieldType2 := if isPtr then "*" ++ goFieldType1 else goFieldType1
        let stn :=
          if isUnderlyingStruct env f.typeId then "Anonymous" ++ f.name
          else structTypeName
        match ParseNamedType fuel env goFieldType2 f.typeId s with
        | .err e s2 => .err ("failed to parse var " ++ f.name ++ ": " ++ e) s2
        | .timeout => .timeout
        | .ok a s2 =>
          .ok (some
            { name := jsonFieldName, typeRef := some a, optional := optional1
              meta := [⟨"go.field.name", f.name⟩, ⟨"go.field.type", goFieldType2⟩]
                ++ (if goFieldImport ≠ "" then [⟨"go.type.import", goFieldImport⟩] else [])
                ++ (if jtag.value ≠ "" then [⟨"go.tag.json", jtag.value⟩] else []) }) s2
  termination_by fuel _ _ _ _ _ => (fuel, 2, 0)

/-- Modelled from the spec: sections 4.1/2.  The internal `ParseSlice`
source file is not in the tree; per the spec it recurses into the
element and emits a List (the root walker's `parseSlice` shape). -/
def ParseSlice : Nat → Env → String → Nat → PState → PRes Nat
  | fuel, env, parentName, elemId, s =>
    match ParseNamedType fuel env parentName elemId s with
    | .err e s2 => .err ("failed to parse slice type: " ++ e) s2
    | .timeout => .timeout
    | .ok a s2 =>
      mkOkVar s2 { expr := "[]" ++ (s2.heapGet a).expr, kind := .tList, listElem := some a }
  termination_by fuel _ _ _ _ => (fuel, 1, 0)

/-- Modelled from the spec: sections 4.1/2.  The internal `ParseMap`
source file is not in the tree; per the spec it recurses into key and
value and emits a Map (the root walker's `parseMap` shape). -/
def ParseMap : Nat → Env → String → Nat → Nat → PState → PRes Nat
  | fuel, env, parentName, keyId, valId, s =>
    match ParseNamedType fuel env parentName keyId s with
    | .err e s2 => .err ("failed to parse map key type: " ++ e) s2
    | .timeout => .timeout
    | .ok ka s2 =>
      match ParseNamedType fuel env parentName valId s2 with
      | .err e s3 => .err ("failed to parse map value type: " ++ e) s3
      | .timeout => .timeout
      | .ok va s3 =>
        mkOkVar s3
          { expr := "map<" ++ (s3.heapGet ka).expr ++ "," ++ (s3.heapGet va).expr ++ ">"
            kind := .tMap, mapKey := some (s3.heapGet ka).kind, mapValue := some va }
  termination_by fuel _ _ _ _ _ => (fuel, 1, 0)

end

end Internal

/-! ## Well-formedness, state ordering, result inspection -/

/-- The type ids a `TypeDesc` mentions (recursion targets). -/
def TypeDesc.refs : TypeDesc → List Nat
  | .named _ _ u _ _ => [u]
  | .structT flds => flds.map (fun f => f.typeId)
  | .sliceT e => [e]
  | .arrayT e => [e]
  | .mapT k v => [k, v]
  | .pointerT e => [e]
  | _ => []

/-- A well-formed host type graph: every type id mentioned by a
declaration is itself declared (as go/types guarantees for real type
objects). -/
def envWF (env : Env) : Prop :=
  ∀ d ∈ env.decls, ∀ r ∈ d.refs, r < env.decls.length

instance (env : Env) : Decidable (envWF env) := by
  unfold envWF; infer_instance

/-- State evolution across a translator call: the memo only gains
entries (existing bindings are preserved, never overwritten), the
schema's type list only grows at the tail, and the heap only grows. -/
def stateLe (s1 s2 : PState) : Prop :=
  (∀ k v, memoLookup s1.parsedTypes k = some v → memoLookup s2.parsedTypes k = some v)
  ∧ s1.schemaTypes <+: s2.schemaTypes
  ∧ s1.heap.length ≤ s2.heap.length

/-- How many declared type ids are not yet claimed in the memo: the
decreasing measure behind termination on cyclic graphs. -/
def unmemoCount (env : Env) (s : PState) : Nat :=
  ((List.range env.decls.length).filter
    (fun i => (memoLookup s.parsedTypes i).isNone)).length

/-- A translator result is good when the state only evolved forward and
— under well-formedness and the fuel bound — the fuel did not run out. -/
structure GoodR (env : Env) (fuel : Nat) (s : PState) {α : Type} (r : PRes α) : Prop where
  mono : ∀ s2, r.stateOpt = some s2 → stateLe s s2
  noTimeout : envWF env → 1 + unmemoCount env s ≤ fuel → r ≠ .timeout

/-- The VarType a successful walker call returns (dereferenced). -/
def okVar : PRes Nat → Option VarTypeObj
  | .ok a s => some (s.heapGet a)
  | _ => none

/-- The state of a failed call. -/
def errState {α : Type} : PRes α → Option PState
  | .err _ s => some s
  | _ => none

/-- Did the call fail? -/
def isErr {α : Type} : PRes α → Bool
  | .err _ _ => true
  | _ => false

/-- The field produced by a successful `parseStructField` call. -/
def fieldOf : PRes (Option TypeFieldObj) → Option TypeFieldObj
  | .ok (some f) _ => some f
  | _ => none

/-- First Meta value under a key (Go `range` over the Meta list). -/
def metaLookup : List TypeFieldMeta → String → Option String
  | [], _ => none
  | m :: rest, k => if m.key = k then some m.value else metaLookup rest k

/-! ## Concrete host graphs used by the witnesses and counterexamples -/

/-- `type Node struct { Value int64; Next *Node }` — the canonical
cyclic graph: id 0 the named `Node`, id 1 its underlying struct, id 2
`int64`, id 3 `*Node` (pointing back to id 0). -/
def envNode : Env :=
  { decls :=
      [ .named (some "pkg") "Node" 1 false false
      , .structT [⟨"Value", true, false, 2, ""⟩, ⟨"Next", true, false, 3, ""⟩]
      , .basic "int64"
      , .pointerT 0 ]
    typeStrs := ["pkg.Node", "struct{...}", "int64", "*pkg.Node"]
    schemaPkgName := "test" }

/-- `map[struct{}]int64`: a map whose key type is a (comparable) struct,
not a primitive — id 0 the map, id 1 the empty struct key, id 2 the
value. -/
def envMapStructKey : Env :=
  { decls := [.mapT 1 2, .structT [], .basic "int64"]
    typeStrs := ["map[struct {}]int64", "struct {}", "int64"]
    schemaPkgName := "test" }

/-- `struct { A struct{}; B chan int }`: the first field translates and
registers a Type, the second hits the walker's unsupported default — a
failure after a visible side effect. -/
def envFail : Env :=
  { decls := [.structT [⟨"A", true, false, 1, ""⟩, ⟨"B", true, false, 2, ""⟩], .structT [], .chanT]
    typeStrs := ["struct{A struct {}; B chan int}", "struct {}", "chan int"]
    schemaPkgName := "test" }

/-- A single `int64` declaration (id 0). -/
def envBasic : Env :=
  { decls := [.basic "int64"]
    typeStrs := ["int64"]
    schemaPkgName := "test" }

/-- A single `string` declaration (id 0), for struct-field scenarios. -/
def envString : Env :=
  { decls := [.basic "string"]
    typeStrs := ["string"]
    schemaPkgName := "test" }

/-- An interface with a non-empty method set (id 0). -/
def envIface : Env :=
  { decls := [.interfaceT ["Read(p []byte) (n int, err error)"]]
    typeStrs := ["interface{...}"]
    schemaPkgName := "test" }

/-- The sentinel enum: id 0 a named type from the gospeak package whose
canonical name is `Enum[int]`, id 1 its underlying `int64`; two doc
comment lines (`approved = 0` and a bare `pending`). -/
def envEnum : Env :=
  { decls := [.named (some "github.com/golang-cz/gospeak") "Status" 1 false false, .basic "int64"]
    typeStrs := ["Enum[int]", "int64"]
    schemaPkgName := "test"
    enumDocComments := ["// approved = 0", "// pending"] }

/-- A registered enum for the internal walker: id 0 a named type whose
`typ.String()` is the `ParsedEnumTypes` key. -/
def envEnumReg : Env :=
  { decls := [.named (some "proto") "Status" 1 false false, .basic "int64"]
    typeStrs := ["proto.Status", "int64"]
    schemaPkgName := "test"
    parsedEnumTypes := [("proto.Status", "Status")] }

/-- `ID int64` tagged `json:"id,string"` — string-coerced numeric. -/
def fldIdString : FieldDecl :=
  { name := "ID", typeId := 0, tag := "json:\"id,string\"" }

/-- `Email string` tagged `json:"email,omitempty"` (spec scenario B). -/
def fldEmail : FieldDecl :=
  { name := "Email", typeId := 0, tag := "json:\"email,omitempty\"" }

/-- `Next *Node` with no tag, inside `envNode`. -/
def fldNext : FieldDecl :=
  { name := "Next", typeId := 3 }

/-- The primitive / string-like IR kinds (the spec's admissible map key
kinds: the basic scalar kinds and the string kind). -/
def TK.isPrimitiveOrStringLike : TK → Bool
  | .tBool | .tByte | .tUint8 | .tUint16 | .tUint32 | .tUint64
  | .tInt8 | .tInt16 | .tInt32 | .tInt64 | .tInt | .tUint
  | .tFloat32 | .tFloat64 | .tString => true
  | _ => false

/-- Goodness of `parseNamedType` at a given fuel, for all inputs. -/
def GoodPN (fuel : Nat) : Prop :=
  ∀ (env : Env) (tn : String) (tid : Nat) (s : PState),
    GoodR env fuel s (parseNamedType fuel env tn tid s)

/-- Goodness of `parseNamedTypeDispatch`. -/
def GoodDispatch (fuel : Nat) : Prop :=
  ∀ (env : Env) (tn : String) (tid : Nat) (s : PState),
    GoodR env fuel s (parseNamedTypeDispatch fuel env tn tid s)

/-- Goodness of `parseNamedRest`. -/
def GoodRest (fuel : Nat) : Prop :=
  ∀ (env : Env) (tn : String) (uid : Nat) (tM jM : Bool) (s : PState),
    GoodR env fuel s (parseNamedRest fuel env tn uid tM jM s)

/-- Goodness of `namedSliceArray`. -/
def GoodNSA (fuel : Nat) : Prop :=
  ∀ (env : Env) (uid eid : Nat) (jM : Bool) (s : PState),
    GoodR env fuel s (namedSliceArray fuel env uid eid jM s)

/-- Goodness of `parseStruct`. -/
def GoodPS (fuel : Nat) : Prop :=
  ∀ (env : Env) (tn : String) (flds : List FieldDecl) (s : PState),
    GoodR env fuel s (parseStruct fuel env tn flds s)

/-- Goodness of `parseStructFields`. -/
def GoodPSFs (fuel : Nat) : Prop :=
  ∀ (env : Env) (tn : String) (flds : List FieldDecl) (i : Nat)
    (acc : List TypeFieldObj) (s : PState),
    GoodR env fuel s (parseStructFields fuel env tn flds i acc s)

/-- Goodness of `parseStructField`. -/
def GoodPSF (fuel : Nat) : Prop :=
  ∀ (env : Env) (stn : String) (f : FieldDecl) (s : PState),
    GoodR env fuel s (parseStructField fuel env stn f s)

/-- Goodness of `parseStructFieldRest`. -/
def GoodPSFRest (fuel : Nat) : Prop :=
  ∀ (env : Env) (stn : String) (f : FieldDecl) (jn : String) (o : Bool) (jv : String)
    (s : PState),
    GoodR env fuel s (parseStructFieldRest fuel env stn f jn o jv s)

/-- Goodness of `parseSlice`. -/
def GoodSlice (fuel : Nat) : Prop :=
  ∀ (env : Env) (tn : String) (eid : Nat) (s : PState),
    GoodR env fuel s (parseSlice fuel env tn eid s)

/-- Goodness of `parseMap`. -/
def GoodMap (fuel : Nat) : Prop :=
  ∀ (env : Env) (tn : String) (k v : Nat) (s : PState),
    GoodR env fuel s (parseMap fuel env tn k v s)

/-! # Theorems -/

/-! ## State-evolution basics -/

theorem stateLe_refl (s : PState) : stateLe s s :=
  ⟨fun _ _ h => h, List.prefix_refl _, le_refl _⟩

theorem stateLe_trans {s1 s2 s3 : PState} (h1 : stateLe s1 s2) (h2 : stateLe s2 s3) :
    stateLe s1 s3 :=
  ⟨fun k v h => h2.1 k v (h1.1 k v h), h1.2.1.trans h2.2.1, le_trans h1.2.2 h2.2.2⟩

theorem stateLe_alloc (s : PState) (v : VarTypeObj) : stateLe s (s.alloc v).2 := by
  refine ⟨fun k w h => h, List.prefix_refl _, ?_⟩
  simp [PState.alloc]

theorem stateLe_heapSet (s : PState) (a : Nat) (v : VarTypeObj) :
    stateLe s (s.heapSet a v) := by
  refine ⟨fun k w h => h, List.prefix_refl _, ?_⟩
  simp [PState.heapSet]

theorem memoLookup_insert_self (s : PState) (t a : Nat) :
    memoLookup (s.memoInsert t a).parsedTypes t = some a := by
  simp [PState.memoInsert, memoLookup]

theorem stateLe_memoInsert (s : PState) (t a : Nat)
    (h : memoLookup s.parsedTypes t = none) : stateLe s (s.memoInsert t a) := by
  refine ⟨fun k v hk => ?_, List.prefix_refl _, le_refl _⟩
  simp only [PState.memoInsert, memoLookup]
  by_cases ht : t = k
  · subst ht; rw [h] at hk; exact absurd hk (by simp)
  · simp [ht, hk]

theorem stateLe_typeAlloc (s : PState) (t : TypeObj) : stateLe s (s.typeAlloc t).2 := by
  exact ⟨fun k v h => h, List.prefix_refl _, le_refl _⟩

theorem stateLe_schemaAppend (s : PState) (t : Nat) : stateLe s (s.schemaAppend t) := by
  exact ⟨fun k v h => h, ⟨[t], rfl⟩, le_refl _⟩

theorem stateLe_claimState (s : PState) (tn : String) (tid : Nat)
    (h : memoLookup s.parsedTypes tid = none) : stateLe s (claimState s tn tid) := by
  refine stateLe_trans (stateLe_alloc s { expr := tn }) ?_
  exact stateLe_memoInsert _ tid s.heap.length (by simpa [PState.alloc] using h)

theorem memoLookup_claimState_self (s : PState) (tn : String) (tid : Nat) :
    memoLookup (claimState s tn tid).parsedTypes tid = some s.heap.length :=
  memoLookup_insert_self _ tid s.heap.length

theorem mkOkVar_stateOpt (s : PState) (v : VarTypeObj) :
    (mkOkVar s v).stateOpt = some (s.alloc v).2 := rfl

theorem goodR_mkOkVar (env : Env) (fuel : Nat) (s : PState) (v : VarTypeObj) :
    GoodR env fuel s (mkOkVar s v) := by
  constructor
  · intro s2 h
    simp only [mkOkVar, PRes.stateOpt] at h
    cases h; exact stateLe_alloc s v
  · intro _ _; simp [mkOkVar]

theorem goodR_parseBasic (env : Env) (fuel : Nat) (bname : String) (s : PState) :
    GoodR env fuel s (parseBasic bname s) := by
  unfold parseBasic
  cases basicTypeKind bname with
  | none =>
    constructor
    · intro s2 h; simp only [PRes.stateOpt] at h; cases h; exact stateLe_refl s
    · intro _ _; simp
  | some k => exact goodR_mkOkVar env fuel s _

theorem goodR_parseAny (env : Env) (fuel : Nat) (tn : String) (ms : List String) (s : PState) :
    GoodR env fuel s (parseAny tn ms s) :=
  goodR_mkOkVar env fuel s _

theorem goodR_err (env : Env) (fuel : Nat) (s s2 : PState) (e : String)
    (h : stateLe s s2) : GoodR env fuel s (PRes.err (α := Nat) e s2) := by
  constructor
  · intro s3 hs; simp only [PRes.stateOpt] at hs; cases hs; exact h
  · intro _ _; simp

/-! ## The override loop (`appendOrOverrideExistingField`) -/

theorem getD_mem_of_lt {α : Type} {l : List α} {j : Nat} (d : α) (h : j < l.length) :
    l.getD j d ∈ l := by
  rw [List.getD_eq_getElem _ _ h]
  exact List.getElem_mem h

theorem appendLoopGo_nomatch (nm : String) :
    ∀ (k i : Nat) (arr : List TypeFieldObj) (len : Nat),
      (∀ j, i ≤ j → j < i + k → ¬ (arr.getD j default).name = nm) →
      appendLoopGo nm k i arr len = (arr, len) := by
  intro k
  induction k with
  | zero => intro i arr len _; rfl
  | succ k ih =>
    intro i arr len h
    rw [appendLoopGo, if_neg (h i le_rfl (by omega))]
    exact ih (i + 1) arr len (fun j h1 h2 => h j (by omega) (by omega))

theorem appendLoopGo_skip (nm : String) :
    ∀ (m k i : Nat) (arr : List TypeFieldObj) (len : Nat),
      (∀ j, i ≤ j → j < i + m → ¬ (arr.getD j default).name = nm) →
      appendLoopGo nm (m + k) i arr len = appendLoopGo nm k (i + m) arr len := by
  intro m
  induction m with
  | zero => intro k i arr len _; simp
  | succ m ih =>
    intro k i arr len h
    have e : m + 1 + k = (m + k) + 1 := by omega
    rw [e, appendLoopGo, if_neg (h i le_rfl (by omega))]
    rw [ih k (i + 1) arr len (fun j h1 h2 => h j (by omega) (by omega))]
    have e2 : i + 1 + m = i + (m + 1) := by omega
    rw [e2]

/-- C2: whenever a field is appended whose name equals an already-present
field's name (field lists built by the flattener have unique names),
`appendOrOverrideExistingField` removes the earlier entry, preserves the
relative order of all other entries, places the new field at the tail —
i.e. it is filter-out-then-append — and the resulting name list is again
duplicate-free. -/
theorem c2_append_override_last_write_wins (slice : List TypeFieldObj) (x : TypeFieldObj)
    (h : (slice.map (fun f => f.name)).Nodup) :
    appendOrOverrideExistingField slice x
        = slice.filter (fun f => !(f.name == x.name)) ++ [x]
      ∧ ((appendOrOverrideExistingField slice x).map (fun f => f.name)).Nodup := by
  have main : appendOrOverrideExistingField slice x
      = slice.filter (fun f => !(f.name == x.name)) ++ [x] := by
    by_cases hmem : ∃ f ∈ slice, f.name = x.name
    · obtain ⟨f0, hf0, hname⟩ := hmem
      obtain ⟨as, bs, rfl⟩ := List.append_of_mem hf0
      have hn : ((as.map (fun f => f.name)) ++ f0.name :: (bs.map (fun f => f.name))).Nodup := by
        simpa using h
      obtain ⟨hnA, hnCB, hdisj⟩ := List.nodup_append.mp hn
      have hAs : ∀ f ∈ as, ¬ f.name = x.name := by
        intro f hf heq
        exact hdisj (List.mem_map_of_mem _ hf) (by
          rw [heq, ← hname]; exact List.mem_cons_self _ _)
      have hBs : ∀ f ∈ bs, ¬ f.name = x.name := by
        intro f hf heq
        have hmm : f0.name ∈ List.map (fun f => f.name) bs := by
          rw [hname, ← heq]; exact List.mem_map_of_mem _ hf
        exact (List.nodup_cons.mp hnCB).1 hmm
      have hget : ((as ++ f0 :: bs).getD as.length default).name = x.name := by
        rw [List.getD_append_right _ _ _ _ le_rfl]
        simp [hname]
      have hshift : goCopyShift (as ++ f0 :: bs) as.length (as ++ f0 :: bs).length
          = (as ++ bs) ++ (f0 :: bs).drop bs.length := by
        unfold goCopyShift
        have e1 : (as ++ f0 :: bs).length - as.length - 1 = bs.length := by
          simp only [List.length_append, List.length_cons]; omega
        have e2 : (as ++ f0 :: bs).length - 1 = as.length + bs.length := by
          simp only [List.length_append, List.length_cons]; omega
        rw [e1, e2, List.take_left]
        have d1 : (as ++ f0 :: bs).drop (as.length + 1) = bs := by
          rw [List.drop_append 1]; rfl
        have d2 : (as ++ f0 :: bs).drop (as.length + bs.length) = (f0 :: bs).drop bs.length :=
          List.drop_append bs.length
        rw [d1, d2, List.take_length]
      have h3 : appendLoopGo x.name bs.length (as.length + 1)
            ((as ++ bs) ++ (f0 :: bs).drop bs.length) ((as ++ f0 :: bs).length - 1)
          = ((as ++ bs) ++ (f0 :: bs).drop bs.length, (as ++ f0 :: bs).length - 1) := by
        cases bs with
        | nil => rfl
        | cons b bs2 =>
          apply appendLoopGo_nomatch
          intro j hj1 hj2 heq
          have hre : (as ++ b :: bs2) ++ (f0 :: b :: bs2).drop (b :: bs2).length
              = as ++ ((b :: bs2) ++ (b :: bs2).drop bs2.length) := by
            rw [List.length_cons, List.drop_succ_cons, List.append_assoc]
          rw [hre] at heq
          have hgd : ((as ++ ((b :: bs2) ++ (b :: bs2).drop bs2.length)).getD j default)
              ∈ (b :: bs2) ++ (b :: bs2).drop bs2.length := by
            rw [List.getD_append_right _ _ _ _ (by omega)]
            apply getD_mem_of_lt
            simp only [List.length_append, List.length_cons, List.length_drop]
            simp only [List.length_cons] at hj2
            omega
          rcases List.mem_append.mp hgd with hm | hm
          · exact hBs _ hm heq
          · exact hBs _ (List.drop_subset bs2.length (b :: bs2) hm) heq
      have hrun : appendLoopGo x.name (as ++ f0 :: bs).length 0 (as ++ f0 :: bs)
            (as ++ f0 :: bs).length
          = ((as ++ bs) ++ (f0 :: bs).drop bs.length, (as ++ f0 :: bs).length - 1) := by
        have hlen : (as ++ f0 :: bs).length = as.length + (bs.length + 1) := by
          simp only [List.length_append, List.length_cons]
        calc appendLoopGo x.name (as ++ f0 :: bs).length 0 (as ++ f0 :: bs)
              (as ++ f0 :: bs).length
            = appendLoopGo x.name (as.length + (bs.length + 1)) 0 (as ++ f0 :: bs)
              (as ++ f0 :: bs).length := by rw [hlen]
          _ = appendLoopGo x.name (bs.length + 1) (0 + as.length) (as ++ f0 :: bs)
              (as ++ f0 :: bs).length := by
              apply appendLoopGo_skip
              intro j hj1 hj2
              rw [List.getD_append _ _ _ _ (by omega)]
              exact hAs _ (getD_mem_of_lt default (by omega))
          _ = appendLoopGo x.name (bs.length + 1) as.length (as ++ f0 :: bs)
              (as ++ f0 :: bs).length := by rw [Nat.zero_add]
          _ = appendLoopGo x.name bs.length (as.length + 1)
              (goCopyShift (as ++ f0 :: bs) as.length (as ++ f0 :: bs).length)
              ((as ++ f0 :: bs).length - 1) := by
              rw [appendLoopGo, if_pos hget]
          _ = appendLoopGo x.name bs.length (as.length + 1)
              ((as ++ bs) ++ (f0 :: bs).drop bs.length)
              ((as ++ f0 :: bs).length - 1) := by rw [hshift]
          _ = ((as ++ bs) ++ (f0 :: bs).drop bs.length, (as ++ f0 :: bs).length - 1) := h3
      have htake : ((as ++ bs) ++ (f0 :: bs).drop bs.length).take ((as ++ f0 :: bs).length - 1)
          = as ++ bs :=
        List.take_left' (by simp only [List.length_append, List.length_cons]; omega)
      have hfil : (as ++ f0 :: bs).filter (fun f => !(f.name == x.name)) = as ++ bs := by
        rw [List.filter_append]
        have hfa : as.filter (fun f => !(f.name == x.name)) = as :=
          List.filter_eq_self.mpr (fun f hf => by simp [hAs f hf])
        rw [hfa]
        have hfb : (f0 :: bs).filter (fun f => !(f.name == x.name)) = bs := by
          rw [List.filter_cons]
          have hc : (!(f0.name == x.name)) = false := by simp [hname]
          rw [hc]
          simp only [Bool.false_eq_true, if_false]
          exact List.filter_eq_self.mpr (fun f hf => by simp [hBs f hf])
        rw [hfb]
      unfold appendOrOverrideExistingField
      rw [hrun]
      show ((as ++ bs) ++ (f0 :: bs).drop bs.length).take ((as ++ f0 :: bs).length - 1) ++ [x] = _
      rw [htake, hfil]
    · push_neg at hmem
      have hfil : slice.filter (fun f => !(f.name == x.name)) = slice :=
        List.filter_eq_self.mpr (fun f hf => by simp [hmem f hf])
      unfold appendOrOverrideExistingField
      rw [appendLoopGo_nomatch x.name slice.length 0 slice slice.length
        (fun j _ hj2 => hmem _ (getD_mem_of_lt default (by omega)))]
      show slice.take slice.length ++ [x] = _
      rw [List.take_length, hfil]
  refine ⟨main, ?_⟩
  rw [main, List.map_append]
  rw [List.nodup_append]
  refine ⟨?_, by simp, ?_⟩
  · exact ((List.filter_sublist slice).map (fun f => f.name)).nodup h
  · intro y hy hy2
    simp only [List.map_cons, List.map_nil, List.mem_singleton] at hy2
    obtain ⟨f, hf, rfl⟩ := List.mem_map.mp hy
    have hp := List.of_mem_filter hf
    simp only [Bool.not_eq_true', beq_eq_false_iff_ne, ne_eq] at hp
    exact hp hy2

/-- C2 witness: a concrete collision (`Kind` shadowing `Kind`). -/
theorem c2_append_override_witness :
    appendOrOverrideExistingField
        [{ name := "ID" }, { name := "Kind" }] { name := "Kind", optional := true }
      = ([{ name := "ID" }, { name := "Kind" }].filter
          (fun f => !(f.name == ({ name := "Kind", optional := true } : TypeFieldObj).name)))
        ++ [{ name := "Kind", optional := true }]
    ∧ ((appendOrOverrideExistingField
        [{ name := "ID" }, { name := "Kind" }]
        { name := "Kind", optional := true }).map (fun f => f.name)).Nodup :=
  c2_append_override_last_write_wins
    [{ name := "ID" }, { name := "Kind" }] { name := "Kind", optional := true } (by decide)

/-! ## The tag parser -/

theorem data_append_eq (a b : String) : (a ++ b).data = a.data ++ b.data := by
  cases a; cases b; rfl

theorem stringMk_data (s : String) : String.mk s.data = s := by
  cases s; rfl

theorem stringMk_append (a b : String) : String.mk (a.data ++ b.data) = a ++ b := by
  cases a; cases b; rfl

theorem takeWhile_append_all {α : Type} (p : α → Bool) :
    ∀ (l r : List α), (∀ c ∈ l, p c = true) → (l ++ r).takeWhile p = l ++ r.takeWhile p := by
  intro l
  induction l with
  | nil => intro r _; simp
  | cons a t ih =>
    intro r h
    simp only [List.cons_append, List.takeWhile_cons, h a (List.mem_cons_self _ _), if_true]
    rw [ih r (fun c hc => h c (List.mem_cons_of_mem _ hc))]

theorem dropWhile_append_all {α : Type} (p : α → Bool) :
    ∀ (l r : List α), (∀ c ∈ l, p c = true) → (l ++ r).dropWhile p = r.dropWhile p := by
  intro l
  induction l with
  | nil => intro r _; simp
  | cons a t ih =>
    intro r h
    simp only [List.cons_append, List.dropWhile_cons, h a (List.mem_cons_self _ _), if_true]
    exact ih r (fun c hc => h c (List.mem_cons_of_mem _ hc))

theorem jsonTagFindAux_key (rest : List Char) (r : List Char × List Char)
    (h : matchJsonValue rest = some r) :
    jsonTagFindAux (jsonTagKey ++ rest) = some r := by
  show jsonTagFindAux ('j' :: 's' :: 'o' :: 'n' :: ':' :: '"' :: rest) = some r
  rw [jsonTagFindAux]
  have hp : jsonTagKey.isPrefixOf ('j' :: 's' :: 'o' :: 'n' :: ':' :: '"' :: rest) = true := by
    simp [jsonTagKey, List.isPrefixOf]
  rw [hp]
  simp only [if_true, List.drop_succ_cons, List.drop_zero]
  rw [h]

theorem matchJsonValue_wf (nm opts : String)
    (hn : ∀ c ∈ nm.data, ¬ c = ',' ∧ ¬ c = '"')
    (ho : ∀ c ∈ opts.data, ¬ c = '"')
    (hc : opts.data = [] ∨ ∃ rest0, opts.data = ',' :: rest0) :
    matchJsonValue (nm.data ++ (opts.data ++ ['"'])) = some (nm.data, opts.data) := by
  have hall : ∀ c ∈ nm.data, tagNameChar c = true := by
    intro c hcm
    simp [tagNameChar, (hn c hcm).1, (hn c hcm).2]
  rcases hc with hce | ⟨rest0, hcc⟩
  · rw [hce]
    unfold matchJsonValue
    rw [takeWhile_append_all _ _ _ hall, dropWhile_append_all _ _ _ hall]
    have e1 : List.takeWhile tagNameChar ['"'] = [] := rfl
    have e2 : List.dropWhile tagNameChar ['"'] = ['"'] := rfl
    simp only [List.nil_append]
    rw [e1, e2]
    simp
  · rw [hcc]
    unfold matchJsonValue
    rw [takeWhile_append_all _ _ _ hall, dropWhile_append_all _ _ _ hall]
    have ht : ((',' :: rest0) ++ ['"']).takeWhile tagNameChar = [] := by
      simp [List.takeWhile_cons, tagNameChar]
    have hd : ((',' :: rest0) ++ ['"']).dropWhile tagNameChar = (',' :: rest0) ++ ['"'] := by
      simp [List.dropWhile_cons, tagNameChar]
    rw [ht, hd]
    simp only [List.cons_append]
    have hall2 : ∀ c ∈ ',' :: rest0, (!(c = '"')) = true := by
      intro c hcm
      rw [← hcc] at hcm
      simp [ho c hcm]
    have ht2 : ((',' :: rest0) ++ ['"']).takeWhile (fun c => !(c = '"')) = ',' :: rest0 := by
      rw [takeWhile_append_all _ _ _ hall2]
      simp
    have hd2 : ((',' :: rest0) ++ ['"']).dropWhile (fun c => !(c = '"')) = ['"'] := by
      rw [dropWhile_append_all _ _ _ hall2]
      simp
    simp only [List.cons_append] at ht2 hd2
    rw [ht2, hd2]
    simp

/-- C7 (amended): options are detected by substring search of the raw
options group: for every well-formed tag `json:"NAME OPTS"` the parsed
name and literal value are exact, and `IsString` / `Omitempty` hold iff
`,string` / `,omitempty` occur as substrings of the options group — so
unknown options containing a recognized option as a prefix (such as
`stringify` or `omitemptyX`) set the corresponding flag, while other
unknown options are ignored. -/
theorem c7_tag_parser_substring_semantics (nm opts : String)
    (hn : ∀ c ∈ nm.data, ¬ c = ',' ∧ ¬ c = '"')
    (ho : ∀ c ∈ opts.data, ¬ c = '"')
    (hc : opts.data = [] ∨ ∃ rest0, opts.data = ',' :: rest0) :
    getJsonTag ("json:\"" ++ nm ++ opts ++ "\"")
      = some { name := nm, value := nm ++ opts
               isString := listContainsSub (",string").data opts.data
               omitempty := listContainsSub (",omitempty").data opts.data } := by
  have hdata : ("json:\"" ++ nm ++ opts ++ "\"").data
      = jsonTagKey ++ (nm.data ++ (opts.data ++ ['"'])) := by
    rw [data_append_eq, data_append_eq, data_append_eq]
    rw [List.append_assoc, List.append_assoc]
    rfl
  unfold getJsonTag
  rw [hdata, jsonTagFindAux_key _ _ (matchJsonValue_wf nm opts hn ho hc)]
  show some ({ name := String.mk nm.data, value := String.mk (nm.data ++ opts.data)
               isString := listContainsSub (",string").data opts.data
               omitempty := listContainsSub (",omitempty").data opts.data } : JsonTag) = _
  rw [stringMk_data, stringMk_append]

/-- C7 counterexample: the unknown option `stringify` is not ignored —
it sets `IsString` because `,string` occurs inside it as a substring,
whereas the same tag with the unknown option removed parses with
`IsString = false`. -/
theorem c7_counterexample :
    getJsonTag "json:\"id,stringify\""
        = some { name := "id", value := "id,stringify", isString := true, omitempty := false }
      ∧ getJsonTag "json:\"id\""
        = some { name := "id", value := "id", isString := false, omitempty := false } := by
  exact ⟨rfl, rfl⟩

/-- C7 witness: the amended substring semantics at the concrete
counterexample tag. -/
theorem c7_witness :
    getJsonTag ("json:\"" ++ "id" ++ ",stringify" ++ "\"")
      = some { name := "id", value := "id" ++ ",stringify"
               isString := listContainsSub (",string").data (",stringify").data
               omitempty := listContainsSub (",omitempty").data (",stringify").data } :=
  c7_tag_parser_substring_semantics "id" ",stringify"
    (by decide) (by decide) (Or.inr ⟨"stringify".data, rfl⟩)

/-! ## Counting unclaimed type ids -/

theorem filter_length_mono {α : Type} (p q : α → Bool) :
    ∀ (l : List α), (∀ a ∈ l, p a = true → q a = true) →
      (l.filter p).length ≤ (l.filter q).length := by
  intro l
  induction l with
  | nil => intro _; simp
  | cons a t ih =>
    intro h
    simp only [List.filter_cons]
    by_cases hp : p a = true
    · rw [hp, h a (List.mem_cons_self _ _) hp]
      simp only [if_true, List.length_cons]
      exact Nat.succ_le_succ (ih (fun b hb hpb => h b (List.mem_cons_of_mem _ hb) hpb))
    · have hp2 : p a = false := by revert hp; cases p a <;> simp
      rw [hp2]
      simp only [Bool.false_eq_true, if_false]
      cases hq : q a
      · simp only [Bool.false_eq_true, if_false]
        exact ih (fun b hb hpb => h b (List.mem_cons_of_mem _ hb) hpb)
      · simp only [if_true, List.length_cons]
        exact le_trans (ih (fun b hb hpb => h b (List.mem_cons_of_mem _ hb) hpb))
          (Nat.le_succ _)

theorem filter_length_lt {α : Type} (p q : α → Bool) (a : α) :
    ∀ (l : List α), a ∈ l → p a = true → q a = false →
      (∀ b ∈ l, q b = true → p b = true) →
      (l.filter q).length < (l.filter p).length := by
  intro l
  induction l with
  | nil => intro hmem; cases hmem
  | cons x t ih =>
    intro hmem hpa hqa himp
    simp only [List.filter_cons]
    rcases List.mem_cons.mp hmem with rfl | hx
    · rw [hpa, hqa]
      simp only [if_true, Bool.false_eq_true, if_false, List.length_cons]
      exact Nat.lt_succ_of_le
        (filter_length_mono q p t (fun b hb hqb => himp b (List.mem_cons_of_mem _ hb) hqb))
    · by_cases hqx : q x = true
      · have hpx := himp x (List.mem_cons_self _ _) hqx
        rw [hqx, hpx]
        simp only [if_true, List.length_cons]
        exact Nat.succ_lt_succ
          (ih hx hpa hqa (fun b hb hqb => himp b (List.mem_cons_of_mem _ hb) hqb))
      · have hqx2 : q x = false := by revert hqx; cases q x <;> simp
        rw [hqx2]
        simp only [Bool.false_eq_true, if_false]
        have hrec := ih hx hpa hqa (fun b hb hqb => himp b (List.mem_cons_of_mem _ hb) hqb)
        by_cases hpx : p x = true
        · rw [hpx]
          simp only [if_true, List.length_cons]
          exact Nat.lt_succ_of_lt hrec
        · have hpx2 : p x = false := by revert hpx; cases p x <;> simp
          rw [hpx2]
          simp only [Bool.false_eq_true, if_false]
          exact hrec

theorem unmemoCount_mono {env : Env} {s1 s2 : PState}
    (h : ∀ k v, memoLookup s1.parsedTypes k = some v → memoLookup s2.parsedTypes k = some v) :
    unmemoCount env s2 ≤ unmemoCount env s1 := by
  unfold unmemoCount
  apply filter_length_mono
  intro a _ hp
  rw [Option.isNone_iff_eq_none] at hp ⊢
  cases h1 : memoLookup s1.parsedTypes a with
  | none => rfl
  | some v => rw [h a v h1] at hp; cases hp

theorem unmemoCount_claim (env : Env) (s : PState) (tn : String) (tid : Nat)
    (htid : tid < env.decls.length) (hmiss : memoLookup s.parsedTypes tid = none) :
    unmemoCount env (claimState s tn tid) < unmemoCount env s := by
  unfold unmemoCount
  apply filter_length_lt _ _ tid
  · exact List.mem_range.mpr htid
  · simp [hmiss]
  · rw [Bool.eq_false_iff]
    intro hq
    rw [Option.isNone_iff_eq_none, memoLookup_claimState_self] at hq
    cases hq
  · intro b _ hq
    rw [Option.isNone_iff_eq_none] at hq ⊢
    cases h1 : memoLookup s.parsedTypes b with
    | none => rfl
    | some v =>
      rw [(stateLe_claimState s tn tid hmiss).1 b v h1] at hq
      cases hq

theorem bound_mono {env : Env} {fuel : Nat} {s s2 : PState} (h : stateLe s s2)
    (hb : 1 + unmemoCount env s ≤ fuel) : 1 + unmemoCount env s2 ≤ fuel :=
  le_trans (Nat.add_le_add_left (unmemoCount_mono h.1) 1) hb

/-! ## GoodR combinators -/

theorem GoodR.le_err {env : Env} {fuel : Nat} {s : PState} {α : Type} {r : PRes α}
    {e : String} {s2 : PState} (h : GoodR env fuel s r) (hr : r = .err e s2) :
    stateLe s s2 :=
  h.mono s2 (by rw [hr]; rfl)

theorem GoodR.le_ok {env : Env} {fuel : Nat} {s : PState} {α : Type} {r : PRes α}
    {a : α} {s2 : PState} (h : GoodR env fuel s r) (hr : r = .ok a s2) :
    stateLe s s2 :=
  h.mono s2 (by rw [hr]; rfl)

theorem goodR_errG {α : Type} {env : Env} {fuel : Nat} {s s2 : PState} (e : String)
    (h : stateLe s s2) : GoodR env fuel s (PRes.err (α := α) e s2) := by
  constructor
  · intro s3 hs; simp only [PRes.stateOpt] at hs; cases hs; exact h
  · intro _ _; simp

theorem goodR_okG {α : Type} {env : Env} {fuel : Nat} {s s2 : PState} (v : α)
    (h : stateLe s s2) : GoodR env fuel s (PRes.ok v s2) := by
  constructor
  · intro s3 hs; simp only [PRes.stateOpt] at hs; cases hs; exact h
  · intro _ _; simp

theorem goodR_mkOkVar_le {env : Env} {fuel : Nat} {s s2 : PState} (v : VarTypeObj)
    (h : stateLe s s2) : GoodR env fuel s (mkOkVar s2 v) := by
  constructor
  · intro s3 hs
    simp only [mkOkVar, PRes.stateOpt] at hs
    cases hs
    exact stateLe_trans h (stateLe_alloc s2 v)
  · intro _ _; simp [mkOkVar]

theorem parseBasic_ne_timeout (bname : String) (s : PState) :
    parseBasic bname s ≠ .timeout := by
  unfold parseBasic
  cases basicTypeKind bname <;> simp [mkOkVar]

theorem parseAny_ne_timeout (tn : String) (ms : List String) (s : PState) :
    parseAny tn ms s ≠ .timeout := by
  simp [parseAny, mkOkVar]

/-! ## Goodness of each walker function -/

theorem goodPSFRest_of (fuel : Nat) (hPN : GoodPN fuel) : GoodPSFRest fuel := by
  intro env stn f jn o jv s
  simp only [parseStructFieldRest]
  split
  · next e s2 heq => exact goodR_errG _ ((hPN env _ f.typeId s).le_err heq)
  · next heq =>
    constructor
    · intro s2 hs; simp [PRes.stateOpt] at hs
    · intro hWF hb; exact absurd heq ((hPN env _ f.typeId s).noTimeout hWF hb)
  · next a s2 heq => exact goodR_okG _ ((hPN env _ f.typeId s).le_ok heq)

theorem goodPSF_of (fuel : Nat) (hPN : GoodPN fuel) : GoodPSF fuel := by
  have hRest := goodPSFRest_of fuel hPN
  intro env stn f s
  simp only [parseStructField]
  split
  · split
    · exact goodR_okG none (stateLe_refl s)
    · split
      · exact goodR_okG _ (stateLe_alloc s _)
      · exact hRest env stn f _ _ _ s
  · exact hRest env stn f _ _ _ s

theorem goodSlice_of (fuel : Nat) (hPN : GoodPN fuel) : GoodSlice fuel := by
  intro env tn eid s
  simp only [parseSlice]
  split
  · next e s2 heq => exact goodR_errG _ ((hPN env tn eid s).le_err heq)
  · next heq =>
    constructor
    · intro s2 hs; simp [PRes.stateOpt] at hs
    · intro hWF hb; exact absurd heq ((hPN env tn eid s).noTimeout hWF hb)
  · next a s2 heq => exact goodR_mkOkVar_le _ ((hPN env tn eid s).le_ok heq)

theorem goodMap_of (fuel : Nat) (hPN : GoodPN fuel) : GoodMap fuel := by
  intro env tn k v s
  simp only [parseMap]
  split
  · next e s2 heq => exact goodR_errG _ ((hPN env tn k s).le_err heq)
  · next heq =>
    constructor
    · intro s2 hs; simp [PRes.stateOpt] at hs
    · intro hWF hb; exact absurd heq ((hPN env tn k s).noTimeout hWF hb)
  · next ka s2 heq =>
    have hle1 := (hPN env tn k s).le_ok heq
    split
    · next e s3 heq2 => exact goodR_errG _ (stateLe_trans hle1 ((hPN env tn v s2).le_err heq2))
    · next heq2 =>
      constructor
      · intro s3 hs; simp [PRes.stateOpt] at hs
      · intro hWF hb
        exact absurd heq2 ((hPN env tn v s2).noTimeout hWF (bound_mono hle1 hb))
    · next va s3 heq2 =>
      exact goodR_mkOkVar_le _ (stateLe_trans hle1 ((hPN env tn v s2).le_ok heq2))

theorem goodPSFs_of (fuel : Nat) (hPN : GoodPN fuel) : GoodPSFs fuel := by
  have hPSF := goodPSF_of fuel hPN
  intro env tn flds
  induction flds with
  | nil =>
    intro i acc s
    simp only [parseStructFields]
    exact goodR_okG acc (stateLe_refl s)
  | cons f rest ih =>
    intro i acc s
    simp only [parseStructFields]
    split
    · exact ih (i + 1) acc s
    · split
      · split
        · next e s2 heq => exact goodR_errG _ ((hPN env "" f.typeId s).le_err heq)
        · next heq =>
          constructor
          · intro s2 hs; simp [PRes.stateOpt] at hs
          · intro hWF hb; exact absurd heq ((hPN env "" f.typeId s).noTimeout hWF hb)
        · next a s2 heq =>
          have hle1 := (hPN env "" f.typeId s).le_ok heq
          refine ⟨fun s3 hs => stateLe_trans hle1 ((ih (i + 1) _ s2).mono s3 hs),
                  fun hWF hb => (ih (i + 1) _ s2).noTimeout hWF (bound_mono hle1 hb)⟩
      · split
        · next e s2 heq => exact goodR_errG _ ((hPSF env tn f s).le_err heq)
        · next heq =>
          constructor
          · intro s2 hs; simp [PRes.stateOpt] at hs
          · intro hWF hb; exact absurd heq ((hPSF env tn f s).noTimeout hWF hb)
        · next s2 heq =>
          have hle1 := (hPSF env tn f s).le_ok heq
          refine ⟨fun s3 hs => stateLe_trans hle1 ((ih (i + 1) acc s2).mono s3 hs),
                  fun hWF hb => (ih (i + 1) acc s2).noTimeout hWF (bound_mono hle1 hb)⟩
        · next fld s2 heq =>
          have hle1 := (hPSF env tn f s).le_ok heq
          refine ⟨fun s3 hs => stateLe_trans hle1 ((ih (i + 1) _ s2).mono s3 hs),
                  fun hWF hb => (ih (i + 1) _ s2).noTimeout hWF (bound_mono hle1 hb)⟩

theorem goodPS_of (fuel : Nat) (hPN : GoodPN fuel) : GoodPS fuel := by
  have hPSFs := goodPSFs_of fuel hPN
  intro env tn flds s
  simp only [parseStruct]
  split
  · next e s2 heq => exact goodR_errG _ ((hPSFs env tn flds 0 [] s).le_err heq)
  · next heq =>
    constructor
    · intro s2 hs; simp [PRes.stateOpt] at hs
    · intro hWF hb; exact absurd heq ((hPSFs env tn flds 0 [] s).noTimeout hWF hb)
  · next fieldList s2 heq =>
    exact goodR_mkOkVar_le _ (stateLe_trans ((hPSFs env tn flds 0 [] s).le_ok heq)
      (stateLe_trans (stateLe_typeAlloc s2 _) (stateLe_schemaAppend _ _)))

theorem goodNSA_of (fuel : Nat) (hPN : GoodPN fuel) : GoodNSA fuel := by
  intro env uid eid jM s
  simp only [namedSliceArray]
  split
  · exact goodR_mkOkVar_le _ (stateLe_alloc s _)
  · split
    · next bname heq =>
      split
      · next e s2 heq2 => exact goodR_errG _ ((goodR_parseBasic env fuel bname s).le_err heq2)
      · next heq2 => exact absurd heq2 (parseBasic_ne_timeout bname s)
      · next bAddr s2 heq2 =>
        exact goodR_mkOkVar_le _ ((goodR_parseBasic env fuel bname s).le_ok heq2)
    · exact hPN env (goTypeName env uid) uid s

theorem goodRest_of (fuel : Nat) (hPN : GoodPN fuel) : GoodRest fuel := by
  have hNSA := goodNSA_of fuel hPN
  intro env tn uid tM jM s
  simp only [parseNamedRest]
  split
  · exact goodR_mkOkVar_le _ (stateLe_refl s)
  · split
    · exact hPN env (goTypeName env uid) uid s
    · next eid heq => exact hNSA env uid eid jM s
    · next eid heq => exact hNSA env uid eid jM s
    · split
      · exact goodR_mkOkVar_le _ (stateLe_refl s)
      · exact hPN env tn uid s

theorem goodDispatch_of (fuel : Nat) (hPN : GoodPN fuel) : GoodDispatch fuel := by
  have hPS := goodPS_of fuel hPN
  have hSlice := goodSlice_of fuel hPN
  have hMap := goodMap_of fuel hPN
  have hRest := goodRest_of fuel hPN
  intro env tn tid s
  simp only [parseNamedTypeDispatch]
  split
  · exact goodR_errG _ (stateLe_refl s)
  · split
    · split
      · exact goodR_mkOkVar_le _ (stateLe_refl s)
      · split
        · split
          · next e s2 heq => exact goodR_errG _ ((hPN env _ _ s).le_err heq)
          · next heq =>
            constructor
            · intro s2 hs; simp [PRes.stateOpt] at hs
            · intro hWF hb; exact absurd heq ((hPN env _ _ s).noTimeout hWF hb)
          · next elemAddr s2 heq =>
            exact goodR_mkOkVar_le _ (stateLe_trans ((hPN env _ _ s).le_ok heq)
              (stateLe_trans (stateLe_typeAlloc s2 _) (stateLe_schemaAppend _ _)))
        · exact hRest env _ _ _ _ s
    · exact hRest env _ _ _ _ s
  · exact goodR_parseBasic env fuel _ s
  · exact hPS env tn _ s
  · exact hSlice env tn _ s
  · exact goodR_parseAny env fuel tn _ s
  · exact hMap env tn _ _ s
  · split
    · exact hPN env _ _ s
    · exact hPN env tn _ s
  · exact goodR_errG _ (stateLe_refl s)
  · exact goodR_errG _ (stateLe_refl s)

theorem goodPN_zero : GoodPN 0 := by
  intro env tn tid s
  constructor
  · intro s2 hs; simp [parseNamedType, PRes.stateOpt] at hs
  · intro _ hb; exact absurd hb (by omega)

theorem goodPN_succ (fuel : Nat) (ih : GoodPN fuel) : GoodPN (fuel + 1) := by
  have hD := goodDispatch_of fuel ih
  intro env tn tid s
  simp only [parseNamedType]
  split
  · next a heq => exact goodR_okG a (stateLe_refl s)
  · next hmiss =>
    have hle0 := stateLe_claimState s tn tid hmiss
    split
    · next a s2 heq =>
      constructor
      · intro s3 hs
        simp only [PRes.stateOpt] at hs
        cases hs
        exact stateLe_trans hle0
          (stateLe_trans ((hD env tn tid _).le_ok heq) (stateLe_heapSet _ _ _))
      · intro _ _; simp
    · next e s2 heq =>
      exact goodR_errG _ (stateLe_trans hle0 ((hD env tn tid _).le_err heq))
    · next heq =>
      constructor
      · intro s3 hs; simp [PRes.stateOpt] at hs
      · intro hWF hb
        cases hget : env.decls.get? tid with
        | none =>
          rw [List.get?_eq_getElem?] at hget
          simp [parseNamedTypeDispatch, hget] at heq
        | some d =>
          have htid : tid < env.decls.length := by
            rcases List.get?_eq_some.mp hget with ⟨hlt, _⟩
            exact hlt
          have hlt := unmemoCount_claim env s tn tid htid hmiss
          exact absurd heq ((hD env tn tid _).noTimeout hWF (by omega))

theorem goodPN_all : ∀ fuel, GoodPN fuel := by
  intro fuel
  induction fuel with
  | zero => exact goodPN_zero
  | succ f ih => exact goodPN_succ f ih

/-! ## Claim theorems -/

theorem unmemoCount_le (env : Env) (s : PState) : unmemoCount env s ≤ env.decls.length := by
  unfold unmemoCount
  calc ((List.range env.decls.length).filter
          (fun i => (memoLookup s.parsedTypes i).isNone)).length
      ≤ (List.range env.decls.length).length := List.length_filter_le _ _
    _ = env.decls.length := List.length_range _

theorem goodDispatch_all (fuel : Nat) : GoodDispatch fuel :=
  goodDispatch_of fuel (goodPN_all fuel)

theorem heapGet_alloc_self (s : PState) (v : VarTypeObj) :
    (s.alloc v).2.heapGet (s.alloc v).1 = v := by
  simp only [PState.alloc, PState.heapGet]
  rw [List.getD_append_right _ _ _ _ le_rfl]
  simp

theorem heapGet_heapSet_self (s : PState) (a : Nat) (v : VarTypeObj)
    (h : a < s.heap.length) : (s.heapSet a v).heapGet a = v := by
  simp only [PState.heapSet, PState.heapGet]
  rw [List.getD_eq_getElem _ _ (by simpa using h)]
  simp

theorem typeGet_typeAlloc_self (s : PState) (t : TypeObj) :
    (s.typeAlloc t).2.typeGet (s.typeAlloc t).1 = t := by
  simp only [PState.typeAlloc, PState.typeGet]
  rw [List.getD_append_right _ _ _ _ le_rfl]
  simp

/-- C1: the type translator terminates on every host type graph,
including cyclic ones: a memo hit returns immediately with no state
change; on a cache miss the placeholder is claimed in the memo (keyed by
the host type, pointing at the placeholder VarType address) before any
recursive work, so every recursive re-encounter short-circuits; and on a
well-formed graph a fuel of one more than the number of declared types
never runs out — the recursion is bounded because every nesting level
claims a fresh type id. -/
theorem c1_cyclic_translation_terminates (env : Env) (tn : String) (tid : Nat) (s : PState) :
    (∀ (fuel a : Nat), memoLookup s.parsedTypes tid = some a →
        parseNamedType (fuel + 1) env tn tid s = .ok a s)
    ∧ memoLookup (claimState s tn tid).parsedTypes tid = some s.heap.length
    ∧ (envWF env → parseNamedType (env.decls.length + 1) env tn tid s ≠ .timeout) := by
  refine ⟨?_, memoLookup_claimState_self s tn tid, ?_⟩
  · intro fuel a ha
    simp only [parseNamedType, ha]
  · intro hWF
    refine (goodPN_all (env.decls.length + 1) env tn tid s).noTimeout hWF ?_
    have h := unmemoCount_le env s
    omega

/-- C1 witness: the self-referencing `Node` struct graph — a memo hit
returns immediately, and the cyclic translation does not exhaust the
fuel bound. -/
theorem c1_witness :
    parseNamedType (0 + 1) envNode "" 0 (claimState ⟨[], [], [], []⟩ "" 0)
        = .ok 0 (claimState ⟨[], [], [], []⟩ "" 0)
    ∧ parseNamedType (envNode.decls.length + 1) envNode "" 0 ⟨[], [], [], []⟩ ≠ .timeout := by
  constructor
  · exact (c1_cyclic_translation_terminates envNode "" 0
      (claimState ⟨[], [], [], []⟩ "" 0)).1 0 0 (by decide)
  · exact (c1_cyclic_translation_terminates envNode "" 0 ⟨[], [], [], []⟩).2.2 (by decide)

/-- C9: translation is idempotent within one parse — a successful call
leaves the returned VarType address memoized under the host type, and
any second invocation on the same host type returns the identical
address (pointer equality) with the state unchanged. -/
theorem c9_translation_idempotent (fuel : Nat) (env : Env) (tn : String) (tid : Nat)
    (s : PState) (a : Nat) (s2 : PState)
    (h : parseNamedType fuel env tn tid s = .ok a s2) :
    memoLookup s2.parsedTypes tid = some a
    ∧ ∀ (fuel2 : Nat) (tn2 : String), parseNamedType (fuel2 + 1) env tn2 tid s2 = .ok a s2 := by
  have hmain : memoLookup s2.parsedTypes tid = some a := by
    cases fuel with
    | zero => simp [parseNamedType] at h
    | succ f =>
      simp only [parseNamedType] at h
      cases hm : memoLookup s.parsedTypes tid with
      | some a0 =>
        simp only [hm] at h
        cases h
        exact hm
      | none =>
        simp only [hm] at h
        cases hd : parseNamedTypeDispatch f env tn tid (claimState s tn tid) with
        | ok a2 s3 =>
          simp only [hd] at h
          cases h
          exact (((goodDispatch_all f) env tn tid _).le_ok hd).1 tid s.heap.length
            (memoLookup_claimState_self s tn tid)
        | err e s3 => simp [hd] at h
        | timeout => simp [hd] at h
  refine ⟨hmain, fun fuel2 tn2 => ?_⟩
  simp only [parseNamedType, hmain]

/-- C9 witness: a concrete `int64` translation, re-invoked on the
post-parse state. -/
theorem c9_witness :
    memoLookup (⟨[{ expr := "int64", kind := .tInt64 }, { expr := "int64", kind := .tInt64 }],
        [], [], [(0, 0)]⟩ : PState).parsedTypes 0 = some 0
    ∧ ∀ (fuel2 : Nat) (tn2 : String),
        parseNamedType (fuel2 + 1) envBasic tn2 0
          ⟨[{ expr := "int64", kind := .tInt64 }, { expr := "int64", kind := .tInt64 }],
           [], [], [(0, 0)]⟩
        = .ok 0 ⟨[{ expr := "int64", kind := .tInt64 }, { expr := "int64", kind := .tInt64 }],
                 [], [], [(0, 0)]⟩ :=
  c9_translation_idempotent 2 envBasic "x" 0 ⟨[], [], [], []⟩ 0 _ (by
    simp +decide [parseNamedType, parseNamedTypeDispatch, parseBasic, mkOkVar, claimState,
      PState.alloc, PState.memoInsert, PState.heapSet, PState.heapGet, memoLookup, envBasic,
      basicTypeKind])

/-- C4 (amended): the translator is not atomic on failure, and it does
not roll back — on every error the parser state is a forward extension
of the pre-call state (the memo keeps every old entry, the schema's type
list keeps what was appended, nothing is removed or retried), and on a
cache miss the placeholder memo entry claimed before the failing work is
STILL present in the error state; in particular the Schema's Types list
may retain nested records appended before the failure (the host tool
discards the whole Schema on error rather than the translator undoing
its writes). -/
theorem c4_failure_leaves_state (fuel : Nat) (env : Env) (tn : String) (tid : Nat)
    (s : PState) (h : isErr (parseNamedType fuel env tn tid s) = true) :
    ∃ s2, errState (parseNamedType fuel env tn tid s) = some s2
      ∧ stateLe s s2
      ∧ (memoLookup s.parsedTypes tid = none →
          ∃ a, memoLookup s2.parsedTypes tid = some a) := by
  cases hres : parseNamedType fuel env tn tid s with
  | ok a s2 => rw [hres] at h; simp [isErr] at h
  | timeout => rw [hres] at h; simp [isErr] at h
  | err e s2 =>
    refine ⟨s2, rfl, (goodPN_all fuel env tn tid s).le_err hres, ?_⟩
    intro hmiss
    cases fuel with
    | zero => simp [parseNamedType] at hres
    | succ f =>
      simp only [parseNamedType, hmiss] at hres
      cases hd : parseNamedTypeDispatch f env tn tid (claimState s tn tid) with
      | ok a2 s3 => simp [hd] at hres
      | timeout => simp [hd] at hres
      | err e2 s3 =>
        simp only [hd] at hres
        cases hres
        exact ⟨s.heap.length, (((goodDispatch_all f) env tn tid _).le_err hd).1 tid _
          (memoLookup_claimState_self s tn tid)⟩

/-- C4 counterexample: `struct { A struct{}; B chan int }` fails on the
second field, yet the error state has one Type record already in the
Schema and the memo still holds the claimed entries — the state is NOT
"left as it was before the failed top-level call". -/
theorem c4_counterexample :
    isErr (parseNamedType 5 envFail "" 0 ⟨[], [], [], []⟩) = true
    ∧ (errState (parseNamedType 5 envFail "" 0 ⟨[], [], [], []⟩)).map
        (fun s2 => (s2.schemaTypes.length, memoLookup s2.parsedTypes 0)) = some (1, some 0) := by
  constructor <;>
  simp +decide [parseNamedType, parseNamedTypeDispatch, parseNamedRest, namedSliceArray,
    parseStruct, parseStructFields, parseStructField, parseStructFieldRest, parseSlice,
    parseMap, parseBasic, parseAny, mkOkVar, claimState, PState.alloc, PState.memoInsert,
    PState.heapSet, PState.heapGet, PState.typeAlloc, PState.typeGet, PState.schemaAppend,
    memoLookup, envFail, isErr, errState, basicTypeKind, getJsonTag, jsonTagFindAux,
    strContainsSub, listContainsSub, appendOrOverrideExistingField, appendLoopGo,
    goTypeName, goTypeImport, typeStrOf, findFirstLetter, trimPfx, filepathBase,
    lastDotIdx, underlyingIdOf, isUnderlyingPointer, isUnderlyingStruct, metaLookup]

/-- C4 witness: the amended no-rollback statement applied to the
concrete failing struct. -/
theorem c4_witness :
    ∃ s2, errState (parseNamedType 5 envFail "" 0 ⟨[], [], [], []⟩) = some s2
      ∧ stateLe ⟨[], [], [], []⟩ s2
      ∧ (memoLookup (⟨[], [], [], []⟩ : PState).parsedTypes 0 = none →
          ∃ a, memoLookup s2.parsedTypes 0 = some a) :=
  c4_failure_leaves_state 5 envFail "" 0 ⟨[], [], [], []⟩ (by
    simp +decide [parseNamedType, parseNamedTypeDispatch, parseNamedRest, namedSliceArray,
      parseStruct, parseStructFields, parseStructField, parseStructFieldRest, parseSlice,
      parseMap, parseBasic, parseAny, mkOkVar, claimState, PState.alloc, PState.memoInsert,
      PState.heapSet, PState.heapGet, PState.typeAlloc, PState.typeGet, PState.schemaAppend,
      memoLookup, envFail, isErr, basicTypeKind, getJsonTag, jsonTagFindAux,
      strContainsSub, listContainsSub, appendOrOverrideExistingField, appendLoopGo,
      goTypeName, goTypeImport, typeStrOf, findFirstLetter, trimPfx, filepathBase,
      lastDotIdx, underlyingIdOf, isUnderlyingPointer, isUnderlyingStruct])

/-- C10: every interface host type — whatever its method set — translates
to the `any` VarType: the dispatch hands the interface to `parseAny`,
which ignores the method list entirely, never fails, and appends nothing
to the Schema's type list. -/
theorem c10_interface_becomes_any (fuel : Nat) (env : Env) (tn : String) (tid : Nat)
    (ms : List String) (s : PState)
    (hdecl : env.decls.get? tid = some (.interfaceT ms))
    (hmiss : memoLookup s.parsedTypes tid = none) :
    parseNamedType (fuel + 1) env tn tid s
      = .ok s.heap.length
          (((claimState s tn tid).alloc { expr := "any", kind := .tAny }).2.heapSet
            s.heap.length { expr := "any", kind := .tAny })
    ∧ (((claimState s tn tid).alloc { expr := "any", kind := .tAny }).2.heapSet
          s.heap.length { expr := "any", kind := .tAny }).heapGet s.heap.length
        = { expr := "any", kind := .tAny }
    ∧ (((claimState s tn tid).alloc { expr := "any", kind := .tAny }).2.heapSet
          s.heap.length { expr := "any", kind := .tAny }).schemaTypes = s.schemaTypes := by
  refine ⟨?_, ?_, rfl⟩
  · simp only [parseNamedType, hmiss, parseNamedTypeDispatch, hdecl, parseAny, mkOkVar,
      heapGet_alloc_self]
  · refine heapGet_heapSet_self _ _ _ ?_
    simp [claimState, PState.alloc, PState.memoInsert]

/-- C10 witness: an interface with a non-empty method set translates to
`any`. -/
theorem c10_witness :
    parseNamedType (2 + 1) envIface "" 0 ⟨[], [], [], []⟩
      = .ok 0
          (((claimState ⟨[], [], [], []⟩ "" 0).alloc { expr := "any", kind := .tAny }).2.heapSet
            0 { expr := "any", kind := .tAny })
    ∧ (((claimState ⟨[], [], [], []⟩ "" 0).alloc { expr := "any", kind := .tAny }).2.heapSet
          0 { expr := "any", kind := .tAny }).heapGet 0 = { expr := "any", kind := .tAny }
    ∧ (((claimState ⟨[], [], [], []⟩ "" 0).alloc { expr := "any", kind := .tAny }).2.heapSet
          0 { expr := "any", kind := .tAny }).schemaTypes
        = (⟨[], [], [], []⟩ : PState).schemaTypes :=
  c10_interface_becomes_any 2 envIface "" 0 ["Read(p []byte) (n int, err error)"]
    ⟨[], [], [], []⟩ (by decide) (by decide)

/-- C3 (amended): `parseMap` performs no key-kind validation — there is
no InvalidMapKey check.  It fails exactly when the key or the value
parse fails (wrapping that error), and whenever both succeed it emits a
Map VarType carrying whatever kind the key parse produced — primitive or
not — together with the value descriptor. -/
theorem c3_map_no_key_validation (fuel : Nat) (env : Env) (tn : String) (k v : Nat)
    (s : PState) :
    (∀ e s2, parseNamedType fuel env tn k s = .err e s2 →
        parseMap fuel env tn k v s = .err ("failed to parse map key type: " ++ e) s2)
    ∧ (∀ ka s2 e s3, parseNamedType fuel env tn k s = .ok ka s2 →
        parseNamedType fuel env tn v s2 = .err e s3 →
        parseMap fuel env tn k v s = .err ("failed to parse map value type: " ++ e) s3)
    ∧ (∀ ka s2 va s3, parseNamedType fuel env tn k s = .ok ka s2 →
        parseNamedType fuel env tn v s2 = .ok va s3 →
        parseMap fuel env tn k v s
          = .ok s3.heap.length
              (s3.alloc
                { expr := "map<" ++ (s3.heapGet ka).expr ++ "," ++ (s3.heapGet va).expr ++ ">"
                  kind := .tMap, mapKey := some (s3.heapGet ka).kind
                  mapValue := some va }).2) := by
  refine ⟨fun e s2 h1 => ?_, fun ka s2 e s3 h1 h2 => ?_, fun ka s2 va s3 h1 h2 => ?_⟩
  · simp only [parseMap, h1]
  · simp only [parseMap, h1, h2]
  · simp only [parseMap, h1, h2, mkOkVar]
    rfl

/-- C3 counterexample: `map[struct{}]int64` — the key type reduces to a
struct, which is not a primitive or string-like kind, yet the full
translation SUCCEEDS (no InvalidMapKey failure) and emits a Map VarType
whose key kind is the struct kind. -/
theorem c3_counterexample :
    okVar (parseNamedType 5 envMapStructKey "" 0 ⟨[], [], [], []⟩)
      = some { expr := "map<,int64>", kind := .tMap, mapKey := some .tStruct
               mapValue := some 3 }
    ∧ TK.isPrimitiveOrStringLike .tStruct = false := by
  refine ⟨?_, rfl⟩
  simp +decide [parseNamedType, parseNamedTypeDispatch, parseNamedRest, namedSliceArray,
    parseStruct, parseStructFields, parseStructField, parseStructFieldRest, parseSlice,
    parseMap, parseBasic, parseAny, mkOkVar, claimState, PState.alloc, PState.memoInsert,
    PState.heapSet, PState.heapGet, PState.typeAlloc, PState.typeGet, PState.schemaAppend,
    memoLookup, envMapStructKey, okVar, basicTypeKind]

/-- C3 witness: the amended success characterization applied to the
struct-keyed map. -/
theorem c3_witness :
    parseMap 4 envMapStructKey "" 1 2 ⟨[], [], [], []⟩
      = .ok (⟨[{ expr := "", kind := .tStruct, structName := "", structTypeRef := some 0 },
               { expr := "", kind := .tStruct, structName := "", structTypeRef := some 0 },
               { expr := "int64", kind := .tInt64 }, { expr := "int64", kind := .tInt64 }],
              [{ kind := "struct", name := "" }], [0], [(2, 2), (1, 0)]⟩ : PState).heap.length
          ((⟨[{ expr := "", kind := .tStruct, structName := "", structTypeRef := some 0 },
              { expr := "", kind := .tStruct, structName := "", structTypeRef := some 0 },
              { expr := "int64", kind := .tInt64 }, { expr := "int64", kind := .tInt64 }],
             [{ kind := "struct", name := "" }], [0], [(2, 2), (1, 0)]⟩ : PState).alloc
            { expr := "map<"
                ++ ((⟨[{ expr := "", kind := .tStruct, structName := "", structTypeRef := some 0 },
                       { expr := "", kind := .tStruct, structName := "", structTypeRef := some 0 },
                       { expr := "int64", kind := .tInt64 },
                       { expr := "int64", kind := .tInt64 }],
                      [{ kind := "struct", name := "" }], [0],
                      [(2, 2), (1, 0)]⟩ : PState).heapGet 0).expr
                ++ ","
                ++ ((⟨[{ expr := "", kind := .tStruct, structName := "", structTypeRef := some 0 },
                       { expr := "", kind := .tStruct, structName := "", structTypeRef := some 0 },
                       { expr := "int64", kind := .tInt64 },
                       { expr := "int64", kind := .tInt64 }],
                      [{ kind := "struct", name := "" }], [0],
                      [(2, 2), (1, 0)]⟩ : PState).heapGet 2).expr
                ++ ">"
              kind := .tMap
              mapKey := some
                ((⟨[{ expr := "", kind := .tStruct, structName := "", structTypeRef := some 0 },
                    { expr := "", kind := .tStruct, structName := "", structTypeRef := some 0 },
                    { expr := "int64", kind := .tInt64 },
                    { expr := "int64", kind := .tInt64 }],
                   [{ kind := "struct", name := "" }], [0],
                   [(2, 2), (1, 0)]⟩ : PState).heapGet 0).kind
              mapValue := some 2 }).2 :=
  (c3_map_no_key_validation 4 envMapStructKey "" 1 2 ⟨[], [], [], []⟩).2.2 0
    ⟨[{ expr := "", kind := .tStruct, structName := "", structTypeRef := some 0 },
      { expr := "", kind := .tStruct, structName := "", structTypeRef := some 0 }],
     [{ kind := "struct", name := "" }], [0], [(1, 0)]⟩ 2
    ⟨[{ expr := "", kind := .tStruct, structName := "", structTypeRef := some 0 },
      { expr := "", kind := .tStruct, structName := "", structTypeRef := some 0 },
      { expr := "int64", kind := .tInt64 }, { expr := "int64", kind := .tInt64 }],
     [{ kind := "struct", name := "" }], [0], [(2, 2), (1, 0)]⟩
    (by
      simp +decide [parseNamedType, parseNamedTypeDispatch, parseStruct, parseStructFields,
        mkOkVar, claimState, PState.alloc, PState.memoInsert, PState.heapSet, PState.heapGet,
        PState.typeAlloc, PState.schemaAppend, memoLookup, envMapStructKey])
    (by
      simp +decide [parseNamedType, parseNamedTypeDispatch, parseBasic, basicTypeKind,
        mkOkVar, claimState, PState.alloc, PState.memoInsert, PState.heapSet, PState.heapGet,
        memoLookup, envMapStructKey])

/-- C5 (amended): a non-ignored field is Optional iff its json tag has
omitempty, OR the tag does NOT carry the string-coerce option and the
underlying host type is a pointer.  String-coercion short-circuits the
pointer check, and `,string` on a non-string host type does NOT make the
field optional. -/
theorem c5_optionality_rule (fuel : Nat) (env : Env) (stn : String) (f : FieldDecl)
    (s : PState) (fld : TypeFieldObj) (s2 : PState)
    (h : parseStructField fuel env stn f s = .ok (some fld) s2) :
    fld.optional
      = ((effectiveJsonTag f.tag).omitempty
         || (!(effectiveJsonTag f.tag).isString && isUnderlyingPointer env f.typeId)) := by
  simp only [parseStructField] at h
  split at h
  · next jtag heq =>
    have hE : effectiveJsonTag f.tag = jtag := by simp [effectiveJsonTag, heq]
    rw [hE]
    split at h
    · simp at h
    · split at h
      · next hstr =>
        cases h
        simp [hstr]
      · next hstr =>
        have hstr2 : jtag.isString = false := by revert hstr; cases jtag.isString <;> simp
        simp only [parseStructFieldRest] at h
        split at h
        · simp at h
        · simp at h
        · next a s3 heq2 =>
          cases h
          rw [hstr2]
          cases hp : isUnderlyingPointer env f.typeId <;> simp [hp]
  · next heq =>
    have hE : effectiveJsonTag f.tag = {} := by simp [effectiveJsonTag, heq]
    rw [hE]
    simp only [parseStructFieldRest] at h
    split at h
    · simp at h
    · simp at h
    · next a s3 heq2 =>
      cases h
      cases hp : isUnderlyingPointer env f.typeId <;> simp [hp]

/-- C5 counterexample: `ID int64` tagged `json:"id,string"` — the
string-coerce option is present on a non-string host type, so the claim
demands Optional=true, but the translator emits Optional=false. -/
theorem c5_counterexample :
    (fieldOf (parseStructField 3 envBasic "X" fldIdString ⟨[], [], [], []⟩)).map
        (fun fld => fld.optional) = some false
    ∧ (effectiveJsonTag fldIdString.tag).isString = true
    ∧ (effectiveJsonTag fldIdString.tag).omitempty = false
    ∧ envBasic.decls.get? fldIdString.typeId = some (.basic "int64") := by
  refine ⟨?_, rfl, rfl, rfl⟩
  have hjt : getJsonTag fldIdString.tag
      = some { name := "id", value := "id,string", isString := true, omitempty := false } := rfl
  have hg : goTypeName envBasic 0 = "int64" := rfl
  have hgi : goTypeImport envBasic 0 = "" := rfl
  simp +decide [parseStructField, parseStructFieldRest, fldIdString, hjt, hg, hgi,
    PState.alloc, fieldOf, envBasic]

/-- C5 witness: the amended rule applied to the omitempty string field
(spec scenario B): optional because of omitempty. -/
theorem c5_witness :
    ({ name := "email", typeRef := some 0, optional := true
       meta := [⟨"go.field.name", "Email"⟩, ⟨"go.field.type", "string"⟩,
                ⟨"go.tag.json", "email,omitempty"⟩] } : TypeFieldObj).optional
      = ((effectiveJsonTag fldEmail.tag).omitempty
         || (!(effectiveJsonTag fldEmail.tag).isString
             && isUnderlyingPointer envString fldEmail.typeId)) :=
  c5_optionality_rule 3 envString "P" fldEmail ⟨[], [], [], []⟩
    { name := "email", typeRef := some 0, optional := true
      meta := [⟨"go.field.name", "Email"⟩, ⟨"go.field.type", "string"⟩,
               ⟨"go.tag.json", "email,omitempty"⟩] }
    ⟨[{ expr := "string", kind := .tString }, { expr := "string", kind := .tString }],
     [], [], [(0, 0)]⟩ (by
    have hjt : getJsonTag fldEmail.tag
        = some { name := "email", value := "email,omitempty", isString := false,
                 omitempty := true } := rfl
    have hg : goTypeName envString 0 = "string" := rfl
    have hgi : goTypeImport envString 0 = "" := rfl
    simp +decide [parseStructField, parseStructFieldRest, parseNamedType,
      parseNamedTypeDispatch, parseBasic, mkOkVar, claimState, memoLookup, fldEmail, hjt,
      hg, hgi, PState.alloc, PState.memoInsert, PState.heapSet, PState.heapGet,
      envString, basicTypeKind, isUnderlyingPointer, isUnderlyingStruct, underlyingIdOf])

/-- C6 (amended): the two walkers disagree on the recorded host type of
an omitempty field.  The root walker's `parseStructField` always records
the UNPREFIXED host type expression in `go.field.type` (omitempty or
not); only the internal parser's `parseStructField` prepends the `*`
nullability marker when the tag has omitempty (so `email string` with
`json:"email,omitempty"` yields `*string` there). -/
theorem c6_omitempty_meta_prefix :
    (∀ (fuel : Nat) (env : Env) (stn : String) (f : FieldDecl) (s : PState)
        (fld : TypeFieldObj) (s2 : PState),
        parseStructField fuel env stn f s = .ok (some fld) s2 →
        metaLookup fld.meta "go.field.type" = some (goTypeName env f.typeId))
    ∧ (∀ (fuel : Nat) (env : Env) (stn : String) (f : FieldDecl) (jtag : Internal.JsonTag)
        (s : PState) (fld : TypeFieldObj) (s2 : PState),
        jtag.omitempty = true → jtag.isString = false →
        isUnderlyingPointer env f.typeId = false →
        Internal.parseStructField fuel env stn f jtag s = .ok (some fld) s2 →
        metaLookup fld.meta "go.field.type" = some ("*" ++ goTypeName env f.typeId)) := by
  constructor
  · intro fuel env stn f s fld s2 h
    simp only [parseStructField] at h
    split at h
    · next jtag heq =>
      split at h
      · simp at h
      · split at h
        · cases h
          simp +decide [metaLookup]
        · simp only [parseStructFieldRest] at h
          split at h
          · simp at h
          · simp at h
          · next a s3 heq2 =>
            cases h
            simp +decide [metaLookup]
    · simp only [parseStructFieldRest] at h
      split at h
      · simp at h
      · simp at h
      · next a s3 heq2 =>
        cases h
        simp +decide [metaLookup]
  · intro fuel env stn f jtag s fld s2 homit hstr hptr h
    simp only [Internal.parseStructField] at h
    split at h
    · simp at h
    · rw [homit, hstr, hptr] at h
      simp only [if_true, Bool.false_eq_true, if_false] at h
      split at h
      · simp at h
      · simp at h
      · next a s3 heq2 =>
        cases h
        simp +decide [metaLookup]

/-- C6 counterexample: the root walker on spec scenario B — `Email
string` with `json:"email,omitempty"` records `go.field.type = string`,
not the claimed `*string`. -/
theorem c6_counterexample :
    (fieldOf (parseStructField 3 envString "P" fldEmail ⟨[], [], [], []⟩)).map
        (fun fld => metaLookup fld.meta "go.field.type")
      = some (some "string")
    ∧ (fieldOf (parseStructField 3 envString "P" fldEmail ⟨[], [], [], []⟩)).map
        (fun fld => fld.optional) = some true
    ∧ ("string" : String) ≠ "*string" := by
  have hjt : getJsonTag fldEmail.tag
      = some { name := "email", value := "email,omitempty", isString := false,
               omitempty := true } := rfl
  have hg : goTypeName envString 0 = "string" := rfl
  have hgi : goTypeImport envString 0 = "" := rfl
  refine ⟨?_, ?_, by decide⟩ <;>
  simp +decide [parseStructField, parseStructFieldRest, parseNamedType,
    parseNamedTypeDispatch, parseBasic, mkOkVar, claimState, memoLookup, fldEmail, hjt,
    hg, hgi, PState.alloc, PState.memoInsert, PState.heapSet, PState.heapGet, fieldOf,
    envString, basicTypeKind, metaLookup]

/-- C6 witness: both halves of the amended claim at scenario B — the
root walker records `string`, the internal walker records `*string`. -/
theorem c6_witness :
    metaLookup ({ name := "email", typeRef := some 0, optional := true
                  meta := [⟨"go.field.name", "Email"⟩, ⟨"go.field.type", "string"⟩,
                           ⟨"go.tag.json", "email,omitempty"⟩] } : TypeFieldObj).meta
        "go.field.type" = some (goTypeName envString fldEmail.typeId)
    ∧ metaLookup ({ name := "email", typeRef := some 0, optional := true
                    meta := [⟨"go.field.name", "Email"⟩, ⟨"go.field.type", "*string"⟩,
                             ⟨"go.tag.json", "email,omitempty"⟩] } : TypeFieldObj).meta
        "go.field.type" = some ("*" ++ goTypeName envString fldEmail.typeId) := by
  constructor
  · exact c6_omitempty_meta_prefix.1 3 envString "P" fldEmail ⟨[], [], [], []⟩
      { name := "email", typeRef := some 0, optional := true
        meta := [⟨"go.field.name", "Email"⟩, ⟨"go.field.type", "string"⟩,
                 ⟨"go.tag.json", "email,omitempty"⟩] }
      ⟨[{ expr := "string", kind := .tString }, { expr := "string", kind := .tString }],
       [], [], [(0, 0)]⟩ (by
      have hjt : getJsonTag fldEmail.tag
          = some { name := "email", value := "email,omitempty", isString := false,
                   omitempty := true } := rfl
      have hg : goTypeName envString 0 = "string" := rfl
      have hgi : goTypeImport envString 0 = "" := rfl
      simp +decide [parseStructField, parseStructFieldRest, parseNamedType,
        parseNamedTypeDispatch, parseBasic, mkOkVar, claimState, memoLookup, fldEmail, hjt,
        hg, hgi, PState.alloc, PState.memoInsert, PState.heapSet, PState.heapGet,
        envString, basicTypeKind, isUnderlyingPointer, isUnderlyingStruct, underlyingIdOf])
  · exact c6_omitempty_meta_prefix.2 3 envString "PField" fldEmail
      { name := "email", value := "email,omitempty", omitempty := true } ⟨[], [], [], []⟩
      { name := "email", typeRef := some 0, optional := true
        meta := [⟨"go.field.name", "Email"⟩, ⟨"go.field.type", "*string"⟩,
                 ⟨"go.tag.json", "email,omitempty"⟩] }
      ⟨[{ expr := "string", kind := .tString }, { expr := "string", kind := .tString }],
       [], [], [(0, 0)]⟩ rfl rfl rfl (by
      have hg : goTypeName envString 0 = "string" := rfl
      have hgi : goTypeImport envString 0 = "" := rfl
      simp +decide [Internal.parseStructField, Internal.ParseNamedType,
        Internal.ParseNamedTypeDispatch, parseBasic, mkOkVar, claimState, memoLookup,
        fldEmail, hg, hgi, PState.alloc, PState.memoInsert, PState.heapSet, PState.heapGet,
        envString, basicTypeKind, isUnderlyingPointer, isUnderlyingStruct, underlyingIdOf])

theorem alloc_fst (s : PState) (v : VarTypeObj) : (s.alloc v).1 = s.heap.length := rfl

theorem heapGet_alloc_len (s : PState) (v : VarTypeObj) :
    (s.alloc v).2.heapGet s.heap.length = v :=
  heapGet_alloc_self s v

theorem typeAlloc_fst (s : PState) (t : TypeObj) : (s.typeAlloc t).1 = s.typeHeap.length := rfl

/-- C8 (amended): enum handling emits an Enum Type record and a VarType
referring to the enum's name, but the returned IR kind is NOT
string-surfaced in the root walker.  On first encounter of the sentinel
`Enum[_,_]` type the root walker appends a Type record of kind `enum`
and returns a VarType of kind Struct carrying a StructRef payload naming
the enum (the source marks this with TODOs to become a proper enum
kind); the internal walker's lookup of a previously registered enum
returns kind String with the enum's name as expression and emits no new
Type record. -/
theorem c8_enum_emission :
    (∀ (fuel : Nat) (env : Env) (tn : String) (tid : Nat) (objId : String) (uid : Nat)
        (tM jM : Bool) (s : PState) (elemAddr : Nat) (s2 : PState),
        env.decls.get? tid
            = some (.named (some "github.com/golang-cz/gospeak") objId uid tM jM) →
        strStartsWith (goTypeName env tid) "Enum[" = true →
        strEndsWith (goTypeName env tid) "]" = true →
        memoLookup s.parsedTypes tid = none →
        parseNamedType fuel env (goTypeName env uid) uid (claimState s tn tid)
            = .ok elemAddr s2 →
        parseNamedType (fuel + 1) env tn tid s
            = .ok s.heap.length
                ((((s2.typeAlloc
                      { kind := "enum", name := objId, elemType := some elemAddr
                        fields := extractEnumValues env }).2.schemaAppend
                    s2.typeHeap.length).alloc
                  { expr := objId, kind := .tStruct, structName := objId
                    structTypeRef := some s2.typeHeap.length }).2.heapSet
                  s.heap.length
                  { expr := objId, kind := .tStruct, structName := objId
                    structTypeRef := some s2.typeHeap.length })
          ∧ ((((s2.typeAlloc
                  { kind := "enum", name := objId, elemType := some elemAddr
                    fields := extractEnumValues env }).2.schemaAppend
                s2.typeHeap.length).alloc
              { expr := objId, kind := .tStruct, structName := objId
                structTypeRef := some s2.typeHeap.length }).2.heapSet
              s.heap.length
              { expr := objId, kind := .tStruct, structName := objId
                structTypeRef := some s2.typeHeap.length }).heapGet s.heap.length
            = { expr := objId, kind := .tStruct, structName := objId
                structTypeRef := some s2.typeHeap.length }
          ∧ ((((s2.typeAlloc
                  { kind := "enum", name := objId, elemType := some elemAddr
                    fields := extractEnumValues env }).2.schemaAppend
                s2.typeHeap.length).alloc
              { expr := objId, kind := .tStruct, structName := objId
                structTypeRef := some s2.typeHeap.length }).2.heapSet
              s.heap.length
              { expr := objId, kind := .tStruct, structName := objId
                structTypeRef := some s2.typeHeap.length }).schemaTypes
            = s2.schemaTypes ++ [s2.typeHeap.length]
          ∧ ((((s2.typeAlloc
                  { kind := "enum", name := objId, elemType := some elemAddr
                    fields := extractEnumValues env }).2.schemaAppend
                s2.typeHeap.length).alloc
              { expr := objId, kind := .tStruct, structName := objId
                structTypeRef := some s2.typeHeap.length }).2.heapSet
              s.heap.length
              { expr := objId, kind := .tStruct, structName := objId
                structTypeRef := some s2.typeHeap.length }).typeGet s2.typeHeap.length
            = { kind := "enum", name := objId, elemType := some elemAddr
                fields := extractEnumValues env })
    ∧ (∀ (fuel : Nat) (env : Env) (pn : String) (tid : Nat) (pkgPath : Option String)
        (objId : String) (uid : Nat) (tM jM : Bool) (pr : String × String) (s : PState),
        env.decls.get? tid = some (.named pkgPath objId uid tM jM) →
        ¬(pkgPath.isSome ∧ goTypeName env tid = "time.Time") →
        (env.parsedEnumTypes.filter (fun p => p.1 = typeStrOf env tid)).head? = some pr →
        memoLookup s.parsedTypes tid = none →
        Internal.ParseNamedType (fuel + 1) env pn tid s
            = .ok s.heap.length
                (((claimState s pn tid).alloc { expr := pr.2, kind := .tString }).2.heapSet
                  s.heap.length { expr := pr.2, kind := .tString })
          ∧ (((claimState s pn tid).alloc { expr := pr.2, kind := .tString }).2.heapSet
                s.heap.length { expr := pr.2, kind := .tString }).heapGet s.heap.length
              = { expr := pr.2, kind := .tString }
          ∧ (((claimState s pn tid).alloc { expr := pr.2, kind := .tString }).2.heapSet
                s.heap.length { expr := pr.2, kind := .tString }).schemaTypes
              = s.schemaTypes) := by
  constructor
  · intro fuel env tn tid objId uid tM jM s elemAddr s2 hdecl hS hE hmiss hun
    have hle : (claimState s tn tid).heap.length ≤ s2.heap.length :=
      ((goodPN_all fuel env (goTypeName env uid) uid (claimState s tn tid)).le_ok hun).2.2
    have hcl : (claimState s tn tid).heap.length = s.heap.length + 1 := by
      simp [claimState, PState.alloc, PState.memoInsert]
    rw [List.get?_eq_getElem?] at hdecl
    refine ⟨?_, ?_, rfl, ?_⟩
    · simp [parseNamedType, hmiss, parseNamedTypeDispatch, hdecl, hS, hE, hun, mkOkVar,
        heapGet_alloc_self, heapGet_alloc_len, alloc_fst, typeAlloc_fst]
    · refine heapGet_heapSet_self _ _ _ ?_
      simp only [PState.alloc, PState.schemaAppend, PState.typeAlloc, List.length_append]
      omega
    · exact typeGet_typeAlloc_self s2 _
  · intro fuel env pn tid pkgPath objId uid tM jM pr s hdecl htime hlook hmiss
    rw [List.get?_eq_getElem?] at hdecl
    refine ⟨?_, ?_, rfl⟩
    · simp [Internal.ParseNamedType, hmiss, Internal.ParseNamedTypeDispatch, hdecl, htime,
        hlook, mkOkVar, heapGet_alloc_self, heapGet_alloc_len, alloc_fst]
    · refine heapGet_heapSet_self _ _ _ ?_
      simp [claimState, PState.alloc, PState.memoInsert]

/-- C8 counterexample: the sentinel enum `Status` (canonical name
`Enum[int]`).  The root walker succeeds and emits the enum Type record,
but the VarType it returns has kind Struct — NOT a string-surfaced
kind as the claim asserts. -/
theorem c8_counterexample :
    okVar (parseNamedType 3 envEnum "Status" 0 ⟨[], [], [], []⟩)
      = some { expr := "Status", kind := .tStruct, structName := "Status"
               structTypeRef := some 0 }
    ∧ ({ expr := "Status", kind := .tStruct, structName := "Status"
         structTypeRef := some 0 } : VarTypeObj).kind ≠ .tString := by
  refine ⟨?_, by decide⟩
  have hg0 : goTypeName envEnum 0 = "Enum[int]" := rfl
  have hg1 : goTypeName envEnum 1 = "int64" := rfl
  have hev : extractEnumValues envEnum
      = [{ name := "approved", value := "0" }, { name := "pending", value := "1" }] := rfl
  simp +decide [parseNamedType, parseNamedTypeDispatch, parseNamedRest, namedSliceArray,
    parseBasic, mkOkVar, claimState, PState.alloc, PState.memoInsert,
    PState.heapSet, PState.heapGet, PState.typeAlloc, PState.typeGet, PState.schemaAppend,
    memoLookup, envEnum, basicTypeKind, hg0, hg1, hev, strStartsWith, strEndsWith, okVar]

/-- C8 witness: both halves of the amended claim at concrete inputs —
the sentinel enum `Status` in the root walker (enum Type record emitted,
Struct-kind VarType returned) and the registered enum `proto.Status` in
the internal walker (String-kind VarType, no Type record). -/
theorem c8_witness :
    parseNamedType 3 envEnum "Status" 0 ⟨[], [], [], []⟩
      = .ok 0
          ⟨[{ expr := "Status", kind := .tStruct, structName := "Status",
              structTypeRef := some 0 },
            { expr := "int64", kind := .tInt64 }, { expr := "int64", kind := .tInt64 },
            { expr := "Status", kind := .tStruct, structName := "Status",
              structTypeRef := some 0 }],
           [{ kind := "enum", name := "Status", elemType := some 1,
              fields := [{ name := "approved", value := "0" },
                         { name := "pending", value := "1" }] }],
           [0], [(1, 1), (0, 0)]⟩
    ∧ Internal.ParseNamedType 2 envEnumReg "Status" 0 ⟨[], [], [], []⟩
      = .ok 0
          ⟨[{ expr := "Status", kind := .tString }, { expr := "Status", kind := .tString }],
           [], [], [(0, 0)]⟩ := by
  constructor
  · have hrun : parseNamedType 2 envEnum (goTypeName envEnum 1) 1
        (claimState ⟨[], [], [], []⟩ "Status" 0)
        = .ok 1
            ⟨[{ expr := "Status" }, { expr := "int64", kind := .tInt64 },
              { expr := "int64", kind := .tInt64 }], [], [], [(1, 1), (0, 0)]⟩ := by
      have hg1 : goTypeName envEnum 1 = "int64" := rfl
      simp +decide [parseNamedType, parseNamedTypeDispatch, parseBasic, mkOkVar,
        claimState, PState.alloc, PState.memoInsert, PState.heapSet, PState.heapGet,
        memoLookup, envEnum, basicTypeKind, hg1]
    have h := (c8_enum_emission.1 2 envEnum "Status" 0 "Status" 1 false false
      ⟨[], [], [], []⟩ 1
      ⟨[{ expr := "Status" }, { expr := "int64", kind := .tInt64 },
        { expr := "int64", kind := .tInt64 }], [], [], [(1, 1), (0, 0)]⟩
      rfl rfl rfl rfl hrun).1
    exact h.trans rfl
  · have h := (c8_enum_emission.2 1 envEnumReg "Status" 0 (some "proto") "Status" 1
      false false ("proto.Status", "Status") ⟨[], [], [], []⟩
      rfl (by decide) rfl rfl).1
    exact h.trans rfl
